import Mathlib

/-!
Shallow embedding of the per-instruction semantic validation passes of
SPIRV-Tools (source/val/validate_constants.cpp and
source/val/validate_function.cpp), together with theorems settling the
frozen claims about their specification.

Modelling conventions:
* An instruction is an opcode plus its operand words (`args`); the C++
  `words()` vector is recovered as the opcode word followed by the
  operands, so `words()[k]` is `args[k-1]` and `GetOperandAs<uint32_t>(k)`
  is `args[k]` (every operand used by these passes is a single word).
* The Validation Context (spec section 4.1) is a read-only record.  The
  queries whose implementations live outside the two validated source
  files (literal evaluation, decoration sets, dimensions, the logical
  match oracle, the limited-use-numeric query, ...) are fields of the
  record, exactly the consumed-interface shape the spec describes.
  `FindDef` is derived from the instruction sequence.
* A validator returns `VRes.ok`, `VRes.err d` where `d` records the
  error code and the first id passed to `getIdName` in the diagnostic
  message (0 when the message names no id), or `VRes.crash` when the C++
  dereferences a null `FindDef` result (undefined behaviour).
* The unbounded recursion of `IsTypeNullable` is embedded with explicit
  fuel; `none` means the C++ call would recurse past that depth.
-/

namespace SpvTools

/-- Opcodes used by the two validated passes (subset of the SPIR-V opcode
enumeration; the numeric codes follow the SPIR-V specification). -/
inductive Op
  | OpNop
  | OpUndef
  | OpTypeBool
  | OpTypeInt
  | OpTypeFloat
  | OpTypeVector
  | OpTypeMatrix
  | OpTypeSampler
  | OpTypeArray
  | OpTypeStruct
  | OpTypePointer
  | OpTypeFunction
  | OpTypeEvent
  | OpTypeDeviceEvent
  | OpTypeReserveId
  | OpTypeQueue
  | OpTypeUntypedPointerKHR
  | OpTypeCooperativeMatrixNV
  | OpTypeCooperativeMatrixKHR
  | OpTypeCooperativeVectorNV
  | OpTypeTensorARM
  | OpConstantTrue
  | OpConstantFalse
  | OpConstant
  | OpConstantComposite
  | OpConstantSampler
  | OpConstantNull
  | OpSpecConstantTrue
  | OpSpecConstantFalse
  | OpSpecConstant
  | OpSpecConstantComposite
  | OpSpecConstantOp
  | OpConstantFunctionPointerINTEL
  | OpFunction
  | OpFunctionParameter
  | OpFunctionCall
  | OpVariable
  | OpUntypedVariableKHR
  | OpCooperativeMatrixPerElementOpNV
  | OpLabel
  | OpAccessChain
  | OpInBoundsAccessChain
  | OpPtrAccessChain
  | OpInBoundsPtrAccessChain
  | OpConvertFToU
  | OpConvertFToS
  | OpConvertSToF
  | OpConvertUToF
  | OpUConvert
  | OpQuantizeToF16
  | OpConvertPtrToU
  | OpConvertUToPtr
  | OpPtrCastToGeneric
  | OpGenericCastToPtr
  | OpBitcast
  | OpFNegate
  | OpFAdd
  | OpFSub
  | OpFMul
  | OpFDiv
  | OpFRem
  | OpFMod
  deriving DecidableEq, Repr

/-- Numeric encoding of an opcode, as it appears in the low half of the
first word of an encoded instruction. -/
def Op.code : Op → Nat
  | .OpNop => 0
  | .OpUndef => 1
  | .OpTypeBool => 20
  | .OpTypeInt => 21
  | .OpTypeFloat => 22
  | .OpTypeVector => 23
  | .OpTypeMatrix => 24
  | .OpTypeSampler => 26
  | .OpTypeArray => 28
  | .OpTypeStruct => 30
  | .OpTypePointer => 32
  | .OpTypeFunction => 33
  | .OpTypeEvent => 34
  | .OpTypeDeviceEvent => 35
  | .OpTypeReserveId => 36
  | .OpTypeQueue => 37
  | .OpConstantTrue => 41
  | .OpConstantFalse => 42
  | .OpConstant => 43
  | .OpConstantComposite => 44
  | .OpConstantSampler => 45
  | .OpConstantNull => 46
  | .OpSpecConstantTrue => 48
  | .OpSpecConstantFalse => 49
  | .OpSpecConstant => 50
  | .OpSpecConstantComposite => 51
  | .OpSpecConstantOp => 52
  | .OpFunction => 54
  | .OpFunctionParameter => 55
  | .OpFunctionCall => 57
  | .OpVariable => 59
  | .OpAccessChain => 65
  | .OpInBoundsAccessChain => 66
  | .OpPtrAccessChain => 67
  | .OpInBoundsPtrAccessChain => 70
  | .OpConvertFToU => 109
  | .OpConvertFToS => 110
  | .OpConvertSToF => 111
  | .OpConvertUToF => 112
  | .OpUConvert => 113
  | .OpQuantizeToF16 => 116
  | .OpConvertPtrToU => 117
  | .OpConvertUToPtr => 120
  | .OpPtrCastToGeneric => 121
  | .OpGenericCastToPtr => 122
  | .OpBitcast => 124
  | .OpFNegate => 127
  | .OpFAdd => 129
  | .OpFSub => 131
  | .OpFMul => 133
  | .OpFDiv => 136
  | .OpFRem => 140
  | .OpFMod => 141
  | .OpLabel => 248
  | .OpTypeTensorARM => 4163
  | .OpTypeUntypedPointerKHR => 4417
  | .OpUntypedVariableKHR => 4441
  | .OpTypeCooperativeMatrixKHR => 4456
  | .OpTypeCooperativeMatrixNV => 5358
  | .OpCooperativeMatrixPerElementOpNV => 5369
  | .OpTypeCooperativeVectorNV => 5441
  | .OpConstantFunctionPointerINTEL => 5600

/-- Decoding of an opcode word, as performed by `spvOpcodeSplit`; words
outside the modelled subset decode to `OpNop`. -/
def decodeOp (n : Nat) : Op :=
  match n with
  | 1 => .OpUndef
  | 20 => .OpTypeBool
  | 21 => .OpTypeInt
  | 22 => .OpTypeFloat
  | 23 => .OpTypeVector
  | 24 => .OpTypeMatrix
  | 26 => .OpTypeSampler
  | 28 => .OpTypeArray
  | 30 => .OpTypeStruct
  | 32 => .OpTypePointer
  | 33 => .OpTypeFunction
  | 34 => .OpTypeEvent
  | 35 => .OpTypeDeviceEvent
  | 36 => .OpTypeReserveId
  | 37 => .OpTypeQueue
  | 41 => .OpConstantTrue
  | 42 => .OpConstantFalse
  | 43 => .OpConstant
  | 44 => .OpConstantComposite
  | 45 => .OpConstantSampler
  | 46 => .OpConstantNull
  | 48 => .OpSpecConstantTrue
  | 49 => .OpSpecConstantFalse
  | 50 => .OpSpecConstant
  | 51 => .OpSpecConstantComposite
  | 52 => .OpSpecConstantOp
  | 54 => .OpFunction
  | 55 => .OpFunctionParameter
  | 57 => .OpFunctionCall
  | 59 => .OpVariable
  | 65 => .OpAccessChain
  | 66 => .OpInBoundsAccessChain
  | 67 => .OpPtrAccessChain
  | 70 => .OpInBoundsPtrAccessChain
  | 109 => .OpConvertFToU
  | 110 => .OpConvertFToS
  | 111 => .OpConvertSToF
  | 112 => .OpConvertUToF
  | 113 => .OpUConvert
  | 116 => .OpQuantizeToF16
  | 117 => .OpConvertPtrToU
  | 120 => .OpConvertUToPtr
  | 121 => .OpPtrCastToGeneric
  | 122 => .OpGenericCastToPtr
  | 124 => .OpBitcast
  | 127 => .OpFNegate
  | 129 => .OpFAdd
  | 131 => .OpFSub
  | 133 => .OpFMul
  | 136 => .OpFDiv
  | 140 => .OpFRem
  | 141 => .OpFMod
  | 248 => .OpLabel
  | 4163 => .OpTypeTensorARM
  | 4417 => .OpTypeUntypedPointerKHR
  | 4441 => .OpUntypedVariableKHR
  | 4456 => .OpTypeCooperativeMatrixKHR
  | 5358 => .OpTypeCooperativeMatrixNV
  | 5369 => .OpCooperativeMatrixPerElementOpNV
  | 5441 => .OpTypeCooperativeVectorNV
  | 5600 => .OpConstantFunctionPointerINTEL
  | _ => .OpNop

/-- A parsed instruction: opcode plus its operand words.  Result-type and
result ids are operands, in the order of the binary encoding. -/
structure Inst where
  op : Op
  args : List Nat
  deriving DecidableEq, Repr

/-- The raw word view of an instruction: the opcode word followed by the
operand words (the word count packed in the high half plays no role in
the validated passes except through `words().size()`, which this view
preserves). -/
def Inst.words (i : Inst) : List Nat := i.op.code :: i.args

/-- Whether an opcode's instructions carry a result-type operand before
the result id (true for the value-producing opcodes these passes touch,
false for type declarations and labels). -/
def Op.hasType : Op → Bool
  | .OpUndef | .OpConstantTrue | .OpConstantFalse | .OpConstant
  | .OpConstantComposite | .OpConstantSampler | .OpConstantNull
  | .OpSpecConstantTrue | .OpSpecConstantFalse | .OpSpecConstant
  | .OpSpecConstantComposite | .OpSpecConstantOp
  | .OpConstantFunctionPointerINTEL
  | .OpFunction | .OpFunctionParameter | .OpFunctionCall
  | .OpVariable | .OpUntypedVariableKHR
  | .OpCooperativeMatrixPerElementOpNV => true
  | _ => false

/-- The `type_id()` accessor: the result-type operand, or 0 when the
opcode has none. -/
def Inst.typeId (i : Inst) : Nat :=
  if i.op.hasType then i.args.getD 0 0 else 0

/-- The `id()` accessor: the result id of the instruction. -/
def Inst.id (i : Inst) : Nat :=
  if i.op.hasType then i.args.getD 1 0 else i.args.getD 0 0

/-- Storage class words used by the validated passes (SPIR-V values). -/
def scUniformConstant : Nat := 0

/-- Storage class word for Workgroup. -/
def scWorkgroup : Nat := 4

/-- Storage class word for Private. -/
def scPrivate : Nat := 6

/-- Storage class word for Function. -/
def scFunction : Nat := 7

/-- Storage class word for AtomicCounter. -/
def scAtomicCounter : Nat := 10

/-- Storage class word for StorageBuffer. -/
def scStorageBuffer : Nat := 12

/-- Storage class word for PhysicalStorageBuffer. -/
def scPhysicalStorageBuffer : Nat := 5349

/-- Capabilities queried by the validated passes. -/
inductive Capability
  | Shader
  | Kernel
  | VariablePointers
  | VariablePointersStorageBuffer
  | FunctionPointersINTEL
  deriving DecidableEq, Repr

/-- Addressing models (only `Logical` is distinguished by these passes). -/
inductive AddressingModel
  | Logical
  | Physical32
  | Physical64
  | PhysicalStorageBuffer64
  deriving DecidableEq, Repr

/-- Feature flags consumed read-only (spec section 3, Feature Set). -/
structure Features where
  variable_pointers : Bool
  uconvert_spec_constant_op : Bool
  deriving DecidableEq, Repr

/-- Validator options (spec section 3, Options). -/
structure ValOptions where
  relax_logical_pointer : Bool
  before_hlsl_legalization : Bool
  deriving DecidableEq, Repr

/-- Error kinds surfaced by the two passes. -/
inductive SpvResult
  | INVALID_ID
  | INVALID_DATA
  | INVALID_CAPABILITY
  | INVALID_LAYOUT
  deriving DecidableEq, Repr

/-- A diagnostic: the error kind together with the first id the message
renders through `getIdName` (0 when the message names no id). -/
structure Diag where
  code : SpvResult
  named : Nat
  deriving DecidableEq, Repr

/-- Outcome of a validator: success, a diagnostic, or undefined behaviour
from dereferencing a null `FindDef` result. -/
inductive VRes
  | ok
  | err (d : Diag)
  | crash
  deriving DecidableEq, Repr

/-- The Validation Context (spec section 4.1): the instruction sequence in
module order plus the read-only query surface.  Queries implemented
outside the two validated source files are abstract fields. -/
structure ValidationState where
  ordered_instructions : List Inst
  capabilities : List Capability
  features : Features
  options : ValOptions
  addressing_model : AddressingModel
  decorations : Nat → List Nat
  evalInt32IfConst : Nat → Bool × Bool × Nat
  evalConstantValUint64 : Nat → Option Nat
  containsLimitedUse : Nat → Bool
  logicallyMatch : Option Inst → Option Inst → Bool
  getDimension : Nat → Nat
  isCooperativeMatrixKHRType : Nat → Bool
  isIntScalarType : Nat → Bool
  getBitWidth : Nat → Nat

/-- Definition-table lookup: the unique defining instruction of an id, or
`none` for an undefined id (id 0 is never defined). -/
def ValidationState.findDef (st : ValidationState) (i : Nat) : Option Inst :=
  if i = 0 then none else st.ordered_instructions.find? (fun inst => inst.id == i)

/-- A capability query over the per-module capability set. -/
def ValidationState.hasCapability (st : ValidationState) (c : Capability) : Bool :=
  st.capabilities.contains c

/-- Modelled from the spec: `is_pointer_type(type_id)` of the Context
interface (section 4.1); the implementation in validation_state.cpp is
not part of the validated sources.  A type id is a pointer type when its
definition is a typed or untyped pointer declaration. -/
def ValidationState.isPointerType (st : ValidationState) (tid : Nat) : Bool :=
  match st.findDef tid with
  | some t => t.op == .OpTypePointer || t.op == .OpTypeUntypedPointerKHR
  | none => false

/-- Modelled from the spec: the "is-constant-or-undef" instruction
classification (section 3); `spvOpcodeIsConstantOrUndef` lives in
source/opcode.cpp, outside the validated sources. -/
def spvOpcodeIsConstantOrUndef (op : Op) : Bool :=
  match op with
  | .OpConstantTrue | .OpConstantFalse | .OpConstant | .OpConstantComposite
  | .OpConstantSampler | .OpConstantNull
  | .OpSpecConstantTrue | .OpSpecConstantFalse | .OpSpecConstant
  | .OpSpecConstantComposite | .OpSpecConstantOp
  | .OpConstantFunctionPointerINTEL | .OpUndef => true
  | _ => false

/-- Modelled from the spec: the constant-defining opcode classification
(section 4.3, cross-cutting rule); `spvOpcodeIsConstant` lives in
source/opcode.cpp, outside the validated sources. -/
def spvOpcodeIsConstant (op : Op) : Bool :=
  match op with
  | .OpConstantTrue | .OpConstantFalse | .OpConstant | .OpConstantComposite
  | .OpConstantSampler | .OpConstantNull
  | .OpSpecConstantTrue | .OpSpecConstantFalse | .OpSpecConstant
  | .OpSpecConstantComposite | .OpSpecConstantOp
  | .OpConstantFunctionPointerINTEL => true
  | _ => false

/-- Modelled from the spec: the composite type kinds (sections 3 and 4.3:
vector, matrix, array, struct, cooperative matrix in two variants,
cooperative vector); `spvOpcodeIsComposite` lives in source/opcode.cpp,
outside the validated sources.  Tensors are handled separately by
`isCompositeType`. -/
def spvOpcodeIsComposite (op : Op) : Bool :=
  match op with
  | .OpTypeVector | .OpTypeMatrix | .OpTypeArray | .OpTypeStruct
  | .OpTypeCooperativeMatrixNV | .OpTypeCooperativeMatrixKHR
  | .OpTypeCooperativeVectorNV => true
  | _ => false

/-- Port of `isCompositeType` (validate_constants.cpp): a composite
opcode, or a tensor type that is shaped (5 words). -/
def isCompositeType (inst : Inst) : Bool :=
  spvOpcodeIsComposite inst.op ||
    (inst.op == .OpTypeTensorARM && inst.words.length == 5)

/-- Port of `ValidateConstantBool` (validate_constants.cpp). -/
def validateConstantBool (st : ValidationState) (inst : Inst) : VRes :=
  match st.findDef inst.typeId with
  | some t => if t.op = .OpTypeBool then .ok else .err ⟨.INVALID_ID, inst.typeId⟩
  | none => .err ⟨.INVALID_ID, inst.typeId⟩

/-- Port of the vector/cooperative-vector constituent loop of
`ValidateConstantComposite`: each constituent must be a defined
constant-or-undef whose defined result type is the component type. -/
def vectorLoop (st : ValidationState) (compTyId : Nat) : List Nat → VRes
  | [] => .ok
  | cid :: rest =>
    match st.findDef cid with
    | none => .err ⟨.INVALID_ID, cid⟩
    | some c =>
      if ¬ spvOpcodeIsConstantOrUndef c.op then .err ⟨.INVALID_ID, cid⟩
      else
        match st.findDef c.typeId with
        | none => .err ⟨.INVALID_ID, cid⟩
        | some ct =>
          if compTyId ≠ ct.id then .err ⟨.INVALID_ID, cid⟩
          else vectorLoop st compTyId rest

/-- Port of the matrix constituent loop of `ValidateConstantComposite`:
each constituent must be a defined constant-or-undef whose defined type
has the column type's opcode, component type id and component count.
When the constituent's vector component type id is undefined the C++
dereferences the null lookup result (`vector_component_type->id()`),
modelled as `crash`. -/
def matrixLoop (st : ValidationState) (colOp : Op) (compTyId compCount : Nat) :
    List Nat → VRes
  | [] => .ok
  | cid :: rest =>
    match st.findDef cid with
    | none => .err ⟨.INVALID_ID, cid⟩
    | some c =>
      if ¬ spvOpcodeIsConstantOrUndef c.op then .err ⟨.INVALID_ID, cid⟩
      else
        match st.findDef c.typeId with
        | none => .err ⟨.INVALID_ID, 0⟩
        | some v =>
          if colOp ≠ v.op then .err ⟨.INVALID_ID, cid⟩
          else
            match st.findDef (v.args.getD 1 0) with
            | none => .crash
            | some vct =>
              if compTyId ≠ vct.id then .err ⟨.INVALID_ID, cid⟩
              else if compCount ≠ v.words.getD 3 0 then .err ⟨.INVALID_ID, cid⟩
              else matrixLoop st colOp compTyId compCount rest

/-- Port of the array constituent loop of `ValidateConstantComposite`:
each constituent must be a defined constant-or-undef whose defined
result type is exactly the element type. -/
def arrayLoop (st : ValidationState) (elemTyId : Nat) : List Nat → VRes
  | [] => .ok
  | cid :: rest =>
    match st.findDef cid with
    | none => .err ⟨.INVALID_ID, cid⟩
    | some c =>
      if ¬ spvOpcodeIsConstantOrUndef c.op then .err ⟨.INVALID_ID, cid⟩
      else
        match st.findDef c.typeId with
        | none => .err ⟨.INVALID_ID, 0⟩
        | some ct =>
          if elemTyId ≠ ct.id then .err ⟨.INVALID_ID, cid⟩
          else arrayLoop st elemTyId rest

/-- Port of the struct constituent loop of `ValidateConstantComposite`:
the constituent at position `memberIdx - 1` must be a defined
constant-or-undef whose defined result type is the defined member type
at operand `memberIdx` of the struct type. -/
def structLoop (st : ValidationState) (rt : Inst) : Nat → List Nat → VRes
  | _, [] => .ok
  | memberIdx, cid :: rest =>
    match st.findDef cid with
    | none => .err ⟨.INVALID_ID, cid⟩
    | some c =>
      if ¬ spvOpcodeIsConstantOrUndef c.op then .err ⟨.INVALID_ID, cid⟩
      else
        match st.findDef c.typeId with
        | none => .err ⟨.INVALID_ID, 0⟩
        | some ct =>
          match st.findDef (rt.args.getD memberIdx 0) with
          | none => .err ⟨.INVALID_ID, cid⟩
          | some mt =>
            if mt.id ≠ ct.id then .err ⟨.INVALID_ID, cid⟩
            else structLoop st rt (memberIdx + 1) rest

/-- Port of the inner shape-comparison loop of the tensor case of
`ValidateConstantComposite`: every resolvable inner dimension of the
constituent's shape must equal the corresponding dimension of the
result type's shape. -/
def shapeLoop (st : ValidationState) (cid : Nat) (shape cshape : Inst) :
    List Nat → Option Diag
  | [] => none
  | csi :: rest =>
    match st.evalConstantValUint64 (cshape.args.getD csi 0),
        st.evalConstantValUint64 (shape.args.getD (csi + 1) 0) with
    | some x, some y =>
      if x ≠ y then some ⟨.INVALID_ID, cid⟩
      else shapeLoop st cid shape cshape rest
    | _, _ => shapeLoop st cid shape cshape rest

/-- Port of the tensor constituent loop of `ValidateConstantComposite`:
rank 0 skips rank-dependent validation; rank 1 requires the element
type; higher ranks require constituent tensors with the same element
type, rank one less, and matching inner shape. -/
def tensorLoop (st : ValidationState) (elemTy : Inst) (rank : Nat) (shape : Inst) :
    List Nat → VRes
  | [] => .ok
  | cid :: rest =>
    match st.findDef cid with
    | none => .err ⟨.INVALID_ID, cid⟩
    | some c =>
      if ¬ spvOpcodeIsConstantOrUndef c.op then .err ⟨.INVALID_ID, cid⟩
      else
        match st.findDef c.typeId with
        | none => .err ⟨.INVALID_ID, 0⟩
        | some ct =>
          if rank = 0 then tensorLoop st elemTy rank shape rest
          else if rank = 1 then
            if elemTy.id ≠ ct.id then .err ⟨.INVALID_ID, cid⟩
            else tensorLoop st elemTy rank shape rest
          else
            if ct.op ≠ .OpTypeTensorARM then .err ⟨.INVALID_ID, cid⟩
            else
              match st.findDef (ct.args.getD 1 0) with
              | none => .err ⟨.INVALID_ID, cid⟩
              | some cet =>
                if cet.id ≠ elemTy.id then .err ⟨.INVALID_ID, cid⟩
                else
                  match (st.findDef (ct.args.getD 2 0)).bind
                      (fun cri => st.evalConstantValUint64 cri.id) with
                  | some cr =>
                    if cr ≠ rank - 1 then .err ⟨.INVALID_ID, cid⟩
                    else
                      match st.findDef (ct.args.getD 3 0) with
                      | none => .err ⟨.INVALID_ID, 0⟩
                      | some cshape =>
                        match shapeLoop st cid shape cshape
                            (List.range' 2 (cshape.args.length - 2)) with
                        | some d => .err d
                        | none => tensorLoop st elemTy rank shape rest
                  | none =>
                    match st.findDef (ct.args.getD 3 0) with
                    | none => .err ⟨.INVALID_ID, 0⟩
                    | some cshape =>
                      match shapeLoop st cid shape cshape
                          (List.range' 2 (cshape.args.length - 2)) with
                      | some d => .err d
                      | none => tensorLoop st elemTy rank shape rest

/-- Port of `ValidateConstantComposite` (validate_constants.cpp): result
type must be a composite kind; per-kind count and constituent rules as
in the source switch. -/
def validateConstantComposite (st : ValidationState) (inst : Inst) : VRes :=
  match st.findDef inst.typeId with
  | none => .err ⟨.INVALID_ID, inst.typeId⟩
  | some rt =>
    if ¬ isCompositeType rt then .err ⟨.INVALID_ID, inst.typeId⟩
    else
      let constituent_count := inst.words.length - 3
      let cs := inst.args.drop 2
      match rt.op with
      | .OpTypeVector | .OpTypeCooperativeVectorNV =>
        let flags :=
          if rt.op = .OpTypeCooperativeVectorNV then
            st.evalInt32IfConst (rt.args.getD 2 0)
          else (true, true, st.getDimension rt.id)
        if flags.2.1 = true ∧ flags.2.2 ≠ constituent_count then
          .err ⟨.INVALID_ID, rt.id⟩
        else
          match st.findDef (rt.args.getD 1 0) with
          | none => .err ⟨.INVALID_ID, 0⟩
          | some compTy => vectorLoop st compTy.id cs
      | .OpTypeMatrix =>
        if rt.args.getD 2 0 ≠ constituent_count then .err ⟨.INVALID_ID, rt.id⟩
        else
          match st.findDef (rt.words.getD 2 0) with
          | none => .err ⟨.INVALID_ID, 0⟩
          | some colTy =>
            match st.findDef (colTy.args.getD 1 0) with
            | none => .err ⟨.INVALID_ID, 0⟩
            | some compTy =>
              matrixLoop st colTy.op compTy.id (colTy.args.getD 2 0) cs
      | .OpTypeArray =>
        match st.findDef (rt.args.getD 1 0) with
        | none => .err ⟨.INVALID_ID, 0⟩
        | some elemTy =>
          match st.findDef (rt.args.getD 2 0) with
          | none => .err ⟨.INVALID_ID, 0⟩
          | some len =>
            let flags := st.evalInt32IfConst len.id
            if flags.1 = true ∧ flags.2.1 = true ∧ flags.2.2 ≠ constituent_count then
              .err ⟨.INVALID_ID, rt.id⟩
            else arrayLoop st elemTy.id cs
      | .OpTypeStruct =>
        if rt.words.length - 2 ≠ constituent_count then
          .err ⟨.INVALID_ID, inst.typeId⟩
        else structLoop st rt 1 cs
      | .OpTypeCooperativeMatrixKHR | .OpTypeCooperativeMatrixNV =>
        if 1 ≠ constituent_count then .err ⟨.INVALID_ID, inst.typeId⟩
        else
          match st.findDef (inst.args.getD 2 0) with
          | none => .err ⟨.INVALID_ID, inst.args.getD 2 0⟩
          | some c =>
            if ¬ spvOpcodeIsConstantOrUndef c.op then
              .err ⟨.INVALID_ID, inst.args.getD 2 0⟩
            else
              match st.findDef c.typeId with
              | none => .err ⟨.INVALID_ID, 0⟩
              | some ct =>
                match st.findDef (rt.args.getD 1 0) with
                | none => .err ⟨.INVALID_ID, inst.args.getD 2 0⟩
                | some compTy =>
                  if compTy.id ≠ ct.id then
                    .err ⟨.INVALID_ID, inst.args.getD 2 0⟩
                  else .ok
      | .OpTypeTensorARM =>
        match st.findDef (rt.args.getD 1 0) with
        | none => .err ⟨.INVALID_ID, 0⟩
        | some elemTy =>
          match st.findDef (rt.args.getD 2 0) with
          | none => .err ⟨.INVALID_ID, 0⟩
          | some rankInst =>
            match st.findDef (rt.args.getD 3 0) with
            | none => .err ⟨.INVALID_ID, 0⟩
            | some shape =>
              let rank := (st.evalConstantValUint64 rankInst.id).getD 0
              let outer := st.evalConstantValUint64 (shape.args.getD 2 0)
              match outer with
              | some o =>
                if o ≠ constituent_count then .err ⟨.INVALID_ID, rt.id⟩
                else tensorLoop st elemTy rank shape cs
              | none => tensorLoop st elemTy rank shape cs
      | _ => .ok

/-- Port of `ValidateConstantSampler` (validate_constants.cpp). -/
def validateConstantSampler (st : ValidationState) (inst : Inst) : VRes :=
  match st.findDef inst.typeId with
  | some t =>
    if t.op = .OpTypeSampler then .ok else .err ⟨.INVALID_ID, inst.typeId⟩
  | none => .err ⟨.INVALID_ID, inst.typeId⟩

mutual

/-- Port of `IsTypeNullable` (validate_constants.cpp), indexed by fuel:
the C++ recursion carries no visited-set or depth cap, so `none` records
that the call at this argument recurses deeper than `fuel` levels.  The
opcode is decoded from word 0 as `spvOpcodeSplit` does. -/
def isTypeNullableF (st : ValidationState) : Nat → List Nat → Option Bool
  | 0, _ => none
  | fuel + 1, ws =>
    match decodeOp (ws.headD 0) with
    | .OpTypeBool | .OpTypeInt | .OpTypeFloat | .OpTypeEvent
    | .OpTypeDeviceEvent | .OpTypeReserveId | .OpTypeQueue => some true
    | .OpTypeArray | .OpTypeMatrix | .OpTypeCooperativeMatrixNV
    | .OpTypeCooperativeMatrixKHR | .OpTypeCooperativeVectorNV
    | .OpTypeVector =>
      match st.findDef (ws.getD 2 0) with
      | none => some false
      | some bt => isTypeNullableF st fuel bt.words
    | .OpTypeStruct => nullableMembersF st fuel (ws.drop 2)
    | .OpTypeUntypedPointerKHR | .OpTypePointer =>
      some (decide (ws.getD 2 0 ≠ scPhysicalStorageBuffer))
    | .OpTypeTensorARM =>
      if 4 < ws.length then
        match st.findDef (ws.getD 2 0) with
        | none => some false
        | some et => isTypeNullableF st fuel et.words
      else some false
    | _ => some false

/-- The struct member walk of `IsTypeNullable`: members are checked left
to right, a missing or non-nullable member returning false at once;
`none` again records exhausted fuel inside a member. -/
def nullableMembersF (st : ValidationState) : Nat → List Nat → Option Bool
  | _, [] => some true
  | fuel, m :: rest =>
    match st.findDef m with
    | none => some false
    | some e =>
      match isTypeNullableF st fuel e.words with
      | none => none
      | some false => some false
      | some true => nullableMembersF st fuel rest

end

/-- Port of `ValidateConstantNull` (validate_constants.cpp), indexed by
the fuel of the nullability traversal; `none` records that the traversal
does not complete within that fuel. -/
def validateConstantNullF (fuel : Nat) (st : ValidationState) (inst : Inst) :
    Option VRes :=
  match st.findDef inst.typeId with
  | none => some (.err ⟨.INVALID_ID, inst.typeId⟩)
  | some rt =>
    match isTypeNullableF st fuel rt.words with
    | none => none
    | some true => some .ok
    | some false => some (.err ⟨.INVALID_ID, inst.typeId⟩)

/-- Port of `ValidateSpecConstant` (validate_constants.cpp).  The type
lookup result is dereferenced (`type_instruction->opcode()`) without a
null check, so an undefined type id is `crash`. -/
def validateSpecConstant (st : ValidationState) (inst : Inst) : VRes :=
  match st.findDef (inst.args.getD 0 0) with
  | none => .crash
  | some t =>
    if t.op ≠ .OpTypeInt ∧ t.op ≠ .OpTypeFloat then .err ⟨.INVALID_DATA, 0⟩
    else .ok

/-- Port of `ValidateSpecConstantOp` (validate_constants.cpp): the
embedded opcode (operand 2) is capability-gated. -/
def validateSpecConstantOp (st : ValidationState) (inst : Inst) : VRes :=
  match decodeOp (inst.args.getD 2 0) with
  | .OpQuantizeToF16 =>
    if ¬ st.hasCapability .Shader then .err ⟨.INVALID_ID, 0⟩ else .ok
  | .OpUConvert =>
    if ¬ st.features.uconvert_spec_constant_op ∧ ¬ st.hasCapability .Kernel then
      .err ⟨.INVALID_ID, 0⟩
    else .ok
  | .OpConvertFToS | .OpConvertSToF | .OpConvertFToU | .OpConvertUToF
  | .OpConvertPtrToU | .OpConvertUToPtr | .OpGenericCastToPtr
  | .OpPtrCastToGeneric | .OpBitcast | .OpFNegate | .OpFAdd | .OpFSub
  | .OpFMul | .OpFDiv | .OpFRem | .OpFMod | .OpAccessChain
  | .OpInBoundsAccessChain | .OpPtrAccessChain | .OpInBoundsPtrAccessChain =>
    if ¬ st.hasCapability .Kernel then .err ⟨.INVALID_ID, 0⟩ else .ok
  | _ => .ok

/-- Port of `ValidateConstantFunctionPointerINTEL`
(validate_constants.cpp): capability-gated; result type must be a
pointer to a function type; a forward-declared function operand is
deferred; a defined one must be an `OpFunction` of the pointee type. -/
def validateConstantFunctionPointerINTEL (st : ValidationState) (inst : Inst) :
    VRes :=
  if ¬ st.hasCapability .FunctionPointersINTEL then
    .err ⟨.INVALID_CAPABILITY, 0⟩
  else
    match st.findDef inst.typeId with
    | none => .err ⟨.INVALID_ID, inst.typeId⟩
    | some rt =>
      if rt.op ≠ .OpTypePointer then .err ⟨.INVALID_ID, inst.typeId⟩
      else
        match st.findDef (rt.args.getD 2 0) with
        | none => .err ⟨.INVALID_ID, inst.typeId⟩
        | some pointee =>
          if pointee.op ≠ .OpTypeFunction then .err ⟨.INVALID_ID, inst.typeId⟩
          else
            match st.findDef (inst.args.getD 2 0) with
            | none => .ok
            | some f =>
              if f.op ≠ .OpFunction then
                .err ⟨.INVALID_ID, inst.args.getD 2 0⟩
              else if f.args.getD 3 0 ≠ pointee.id then
                .err ⟨.INVALID_ID, inst.args.getD 2 0⟩
              else .ok

/-- The opcode dispatch switch of `ConstantPass` (validate_constants.cpp),
before the cross-cutting narrow-constant rule. -/
def constantDispatchF (fuel : Nat) (st : ValidationState) (inst : Inst) :
    Option VRes :=
  match inst.op with
  | .OpConstantTrue | .OpConstantFalse | .OpSpecConstantTrue
  | .OpSpecConstantFalse => some (validateConstantBool st inst)
  | .OpConstantComposite | .OpSpecConstantComposite =>
    some (validateConstantComposite st inst)
  | .OpConstantSampler => some (validateConstantSampler st inst)
  | .OpConstantNull => validateConstantNullF fuel st inst
  | .OpSpecConstant => some (validateSpecConstant st inst)
  | .OpSpecConstantOp => some (validateSpecConstantOp st inst)
  | .OpConstantFunctionPointerINTEL =>
    some (validateConstantFunctionPointerINTEL st inst)
  | _ => some .ok

/-- Port of `ConstantPass` (validate_constants.cpp): per-opcode dispatch
followed by the cross-cutting rejection of 8- and 16-bit constants under
the Shader capability. -/
def constantPassF (fuel : Nat) (st : ValidationState) (inst : Inst) :
    Option VRes :=
  match constantDispatchF fuel st inst with
  | some .ok =>
    if spvOpcodeIsConstant inst.op ∧ st.hasCapability .Shader ∧
        ¬ st.isPointerType inst.typeId ∧ st.containsLimitedUse inst.typeId then
      some (.err ⟨.INVALID_ID, 0⟩)
    else some .ok
  | r => r

/-- Port of `DoPointeesLogicallyMatch` (validate_function.cpp): both
types must be typed pointers, the decorations of `b` a subset of those
of `a`, and the pointees either identical or related by the Context's
`LogicallyMatch` oracle (whose implementation lives outside the
validated sources). -/
def doPointeesLogicallyMatch (st : ValidationState) (a b : Inst) : Bool :=
  if a.op ≠ .OpTypePointer ∨ b.op ≠ .OpTypePointer then false
  else
    let decA := st.decorations a.id
    let decB := st.decorations b.id
    if ¬ decB.all (fun d => decA.contains d) then false
    else
      let aT := a.args.getD 2 0
      let bT := b.args.getD 2 0
      if aT = bT then true
      else st.logicallyMatch (st.findDef aT) (st.findDef bT)

/-- Port of the memory-object-declaration block of `ValidateFunctionCall`
(validate_function.cpp): an argument that is not a variable, untyped
variable or function parameter needs the HLSL-legalization option or one
of the storage-class/capability escapes. -/
def memoryObjectCheck (st : ValidationState) (argument : Inst)
    (argId sc : Nat) : VRes :=
  if argument.op ≠ .OpVariable ∧ argument.op ≠ .OpUntypedVariableKHR ∧
      argument.op ≠ .OpFunctionParameter then
    let ssbo_vptr := st.hasCapability .VariablePointersStorageBuffer ∧
      sc = scStorageBuffer
    let wg_vptr := st.hasCapability .VariablePointers ∧ sc = scWorkgroup
    let uc_ptr := sc = scUniformConstant
    if ¬ st.options.before_hlsl_legalization ∧ ¬ ssbo_vptr ∧ ¬ wg_vptr ∧
        ¬ uc_ptr then
      .err ⟨.INVALID_ID, argId⟩
    else .ok
  else .ok

/-- Port of the per-argument body of the `ValidateFunctionCall` loop
(validate_function.cpp): argument and its type must be defined; the
argument type must equal the declared parameter type, with the
logical-pointee fallback under `before_hlsl_legalization`; under the
Logical addressing model without `relax_logical_pointer`, pointer
parameters restrict the storage class and the argument must be a memory
object declaration. -/
def checkArg (st : ValidationState) (argId paramTypeId : Nat) : VRes :=
  match st.findDef argId with
  | none => .err ⟨.INVALID_ID, 0⟩
  | some argument =>
    match st.findDef argument.typeId with
    | none => .err ⟨.INVALID_ID, 0⟩
    | some argument_type =>
      match st.findDef paramTypeId with
      | none => .err ⟨.INVALID_ID, argId⟩
      | some parameter_type =>
        if argument_type.id ≠ parameter_type.id ∧
            (¬ st.options.before_hlsl_legalization ∨
              ¬ doPointeesLogicallyMatch st argument_type parameter_type) then
          .err ⟨.INVALID_ID, argId⟩
        else if st.addressing_model = .Logical then
          if (parameter_type.op = .OpTypePointer ∨
              parameter_type.op = .OpTypeUntypedPointerKHR) ∧
              ¬ st.options.relax_logical_pointer then
            let sc := parameter_type.args.getD 1 0
            if sc = scUniformConstant ∨ sc = scFunction ∨ sc = scPrivate ∨
                sc = scWorkgroup ∨ sc = scAtomicCounter then
              memoryObjectCheck st argument argId sc
            else if sc = scStorageBuffer then
              if ¬ st.features.variable_pointers then .err ⟨.INVALID_ID, argId⟩
              else memoryObjectCheck st argument argId sc
            else .err ⟨.INVALID_ID, argId⟩
          else .ok
        else .ok

/-- The argument loop of `ValidateFunctionCall`: arguments are checked in
order against the function type's parameter operands starting at operand
index 2, the first failure returned. -/
def callLoop (st : ValidationState) (ftype : Inst) : Nat → List Nat → VRes
  | _, [] => .ok
  | paramIdx, a :: rest =>
    match checkArg st a (ftype.args.getD paramIdx 0) with
    | .ok => callLoop st ftype (paramIdx + 1) rest
    | r => r

/-- Port of `ValidateFunctionCall` (validate_function.cpp).  When the
callee's result-type id has no definition the C++ builds the mismatch
diagnostic and dereferences the null lookup (`return_type->id()`),
modelled as `crash`. -/
def validateFunctionCall (st : ValidationState) (inst : Inst) : VRes :=
  match st.findDef (inst.args.getD 2 0) with
  | none => .err ⟨.INVALID_ID, inst.args.getD 2 0⟩
  | some f =>
    if f.op ≠ .OpFunction then .err ⟨.INVALID_ID, inst.args.getD 2 0⟩
    else
      match st.findDef f.typeId with
      | none => .crash
      | some return_type =>
        if return_type.id ≠ inst.typeId then .err ⟨.INVALID_ID, inst.typeId⟩
        else
          match st.findDef (f.args.getD 3 0) with
          | none => .err ⟨.INVALID_ID, 0⟩
          | some ftype =>
            if ftype.op ≠ .OpTypeFunction then .err ⟨.INVALID_ID, 0⟩
            else if ftype.words.length - 3 ≠ inst.words.length - 4 then
              .err ⟨.INVALID_ID, 0⟩
            else callLoop st ftype 2 (inst.args.drop 3)

/-- A placeholder instruction used only as the out-of-range default of
list indexing (the C++ never reads out of range on the modelled paths). -/
def dummyInst : Inst := ⟨.OpNop, []⟩

/-- Port of the backward scan of `ValidateFunctionParameter`
(validate_function.cpp): starting from the parameter's index, the loop
`while (--inst_num)` walks indices down to 1 (index 0 is never
examined), stopping at the first `OpFunction` and counting the
`OpFunctionParameter` instructions passed on the way. -/
def backScan (ordered : List Inst) (cur : Inst) (pidx : Nat) :
    Nat → Inst × Nat
  | 0 => (cur, pidx)
  | 1 => (cur, pidx)
  | n + 2 =>
    let fi := ordered.getD (n + 1) dummyInst
    if fi.op = .OpFunction then (fi, pidx)
    else
      backScan ordered fi
        (if fi.op = .OpFunctionParameter then pidx + 1 else pidx) (n + 1)

/-- Port of `ValidateFunctionParameter` (validate_function.cpp) for the
instruction at 0-based position `idx` of the module's ordered
instruction sequence (`LineNum() - 1` in the source). -/
def validateFunctionParameter (st : ValidationState) (idx : Nat) : VRes :=
  let inst := st.ordered_instructions.getD idx dummyInst
  if idx = 0 then .err ⟨.INVALID_LAYOUT, 0⟩
  else
    let scan := backScan st.ordered_instructions inst 0 idx
    let func_inst := scan.1
    let param_index := scan.2
    if func_inst.op ≠ .OpFunction then .err ⟨.INVALID_LAYOUT, 0⟩
    else
      match st.findDef (func_inst.args.getD 3 0) with
      | none => .err ⟨.INVALID_ID, 0⟩
      | some ftype =>
        if 3 ≤ ftype.words.length ∧ param_index + 3 ≥ ftype.words.length then
          .err ⟨.INVALID_ID, 0⟩
        else
          match st.findDef (ftype.args.getD (param_index + 2) 0) with
          | none => .err ⟨.INVALID_ID, inst.typeId⟩
          | some pt =>
            if inst.typeId ≠ pt.id then .err ⟨.INVALID_ID, inst.typeId⟩
            else .ok

/-- Port of `ValidateCooperativeMatrixPerElementOp`
(validate_function.cpp).  The matrix operand's lookup is dereferenced
without a null check (`matrix->type_id()`), modelled as `crash`; the
same applies to the later unchecked lookups of the matrix type and the
callee's function type. -/
def validateCooperativeMatrixPerElementOp (st : ValidationState)
    (inst : Inst) : VRes :=
  match st.findDef (inst.args.getD 3 0) with
  | none => .err ⟨.INVALID_ID, inst.args.getD 3 0⟩
  | some f =>
    if f.op ≠ .OpFunction then .err ⟨.INVALID_ID, inst.args.getD 3 0⟩
    else
      match st.findDef (inst.args.getD 2 0) with
      | none => .crash
      | some matrix =>
        if ¬ st.isCooperativeMatrixKHRType matrix.typeId then
          .err ⟨.INVALID_ID, inst.args.getD 2 0⟩
        else if matrix.typeId ≠ inst.args.getD 0 0 then
          .err ⟨.INVALID_ID, inst.args.getD 0 0⟩
        else
          match st.findDef matrix.typeId with
          | none => .crash
          | some mt =>
            let matrix_comp_type_id := mt.args.getD 1 0
            match st.findDef (f.args.getD 3 0) with
            | none => .crash
            | some ftype =>
              if ftype.args.getD 1 0 ≠ matrix_comp_type_id then
                .err ⟨.INVALID_ID, ftype.args.getD 1 0⟩
              else if ftype.args.length < 5 then
                .err ⟨.INVALID_ID, f.args.getD 3 0⟩
              else
                let p0 := ftype.args.getD 2 0
                let p1 := ftype.args.getD 3 0
                let p2 := ftype.args.getD 4 0
                if ¬ st.isIntScalarType p0 ∨ st.getBitWidth p0 ≠ 32 then
                  .err ⟨.INVALID_ID, p0⟩
                else if ¬ st.isIntScalarType p1 ∨ st.getBitWidth p1 ≠ 32 then
                  .err ⟨.INVALID_ID, p1⟩
                else if p2 ≠ matrix_comp_type_id then
                  .err ⟨.INVALID_ID, p2⟩
                else .ok

/-- The recursive nullability predicate exactly as the spec words it
(section 4.3, ConstantNull): scalar, numeric, event and queue-like types
are nullable; array, matrix, vector, cooperative-matrix and
cooperative-vector types are nullable iff their base or component type
is; a struct is nullable iff every member is; a pointer is nullable
unless its storage class is PhysicalStorageBuffer; a tensor is nullable
iff it is shaped and its element type is nullable; all else is not
nullable.  Stated over raw instruction words, components resolved
through the definition table. -/
inductive NullableW (st : ValidationState) : List Nat → Prop
  | base (ws : List Nat)
      (h : decodeOp (ws.headD 0) ∈ ([.OpTypeBool, .OpTypeInt, .OpTypeFloat,
        .OpTypeEvent, .OpTypeDeviceEvent, .OpTypeReserveId,
        .OpTypeQueue] : List Op)) : NullableW st ws
  | comp (ws : List Nat) (bt : Inst)
      (h : decodeOp (ws.headD 0) ∈ ([.OpTypeArray, .OpTypeMatrix,
        .OpTypeCooperativeMatrixNV, .OpTypeCooperativeMatrixKHR,
        .OpTypeCooperativeVectorNV, .OpTypeVector] : List Op))
      (hbt : st.findDef (ws.getD 2 0) = some bt)
      (hnull : NullableW st bt.words) : NullableW st ws
  | strukt (ws : List Nat)
      (h : decodeOp (ws.headD 0) = .OpTypeStruct)
      (hdef : ∀ m ∈ ws.drop 2, (st.findDef m).isSome)
      (hmem : ∀ m e, m ∈ ws.drop 2 → st.findDef m = some e →
        NullableW st e.words) : NullableW st ws
  | ptr (ws : List Nat)
      (h : decodeOp (ws.headD 0) ∈ ([.OpTypeUntypedPointerKHR,
        .OpTypePointer] : List Op))
      (hsc : ws.getD 2 0 ≠ scPhysicalStorageBuffer) : NullableW st ws
  | tensor (ws : List Nat) (et : Inst)
      (h : decodeOp (ws.headD 0) = .OpTypeTensorARM)
      (hlen : 4 < ws.length)
      (het : st.findDef (ws.getD 2 0) = some et)
      (hnull : NullableW st et.words) : NullableW st ws

/-- A Validation Context over a given instruction sequence with no
capabilities, no features, default options, Logical addressing and
trivial external queries; used to build concrete modules in witnesses. -/
def mkState (insts : List Inst) : ValidationState :=
  ⟨insts, [], ⟨false, false⟩, ⟨false, false⟩, .Logical, fun _ => [],
    fun _ => (false, false, 0), fun _ => none, fun _ => false,
    fun _ _ => false, fun _ => 0, fun _ => false, fun _ => false,
    fun _ => 0⟩

/-- A self-referential struct type: the single member type id is the
struct's own result id, making the type graph cyclic. -/
def cyclicStruct : Inst := ⟨.OpTypeStruct, [1, 1]⟩

/-- A module consisting of the self-referential struct type alone. -/
def cyclicState : ValidationState := mkState [cyclicStruct]

/-- The number of `OpFunctionParameter` instructions strictly between
positions `j` and `n` of the ordered instruction sequence. -/
def paramCountBetween (ordered : List Inst) (j n : Nat) : Nat :=
  (List.range' (j + 1) (n - (j + 1))).countP
    (fun l => (ordered.getD l dummyInst).op == .OpFunctionParameter)

/-- Acceptance condition for the constituent at position `i` of a struct
constant: it resolves to a constant-or-undef whose result-type id is the
struct's member type id at the same position (member types are operands
1 and up of the struct type). -/
def structConstituentOk (st : ValidationState) (rt : Inst) (cs : List Nat)
    (i : Nat) : Prop :=
  ∃ c, st.findDef (cs.getD i 0) = some c ∧
    spvOpcodeIsConstantOrUndef c.op = true ∧ c.typeId = rt.args.getD (1 + i) 0

/-- Concrete module for the struct-composite witness: a two-member
struct, an integer constant and a float undef as constituents. -/
def c1State : ValidationState :=
  mkState [⟨.OpTypeInt, [1, 32, 0]⟩, ⟨.OpTypeFloat, [2, 32]⟩,
    ⟨.OpTypeStruct, [3, 1, 2]⟩, ⟨.OpConstant, [1, 4, 5]⟩,
    ⟨.OpUndef, [2, 5]⟩]

/-- The struct constant of the `c1State` module. -/
def c1Inst : Inst := ⟨.OpConstantComposite, [3, 6, 4, 5]⟩

/-- Concrete module for the call storage-class witness: a variable of a
Function-storage pointer type passed where that type is expected. -/
def c2State : ValidationState :=
  mkState [⟨.OpTypeFloat, [1, 32]⟩, ⟨.OpTypePointer, [2, 7, 1]⟩,
    ⟨.OpVariable, [2, 3, 7]⟩]

/-- Concrete module for the parameter-index witness: a float type, a
one-parameter function type, a function, and its parameter. -/
def c3State : ValidationState :=
  mkState [⟨.OpTypeFloat, [5, 32]⟩, ⟨.OpTypeFunction, [4, 2, 5]⟩,
    ⟨.OpFunction, [2, 3, 0, 4]⟩, ⟨.OpFunctionParameter, [5, 6]⟩]

/-- Concrete module for the unresolved-array-length witness: the array
length operand is a specialization constant, and the composite supplies
two constituents of the element type. -/
def c4State : ValidationState :=
  mkState [⟨.OpTypeInt, [1, 32, 0]⟩, ⟨.OpSpecConstant, [1, 2, 3]⟩,
    ⟨.OpTypeArray, [3, 1, 2]⟩, ⟨.OpConstant, [1, 4, 7]⟩]

/-- The array constant of the `c4State` module. -/
def c4Inst : Inst := ⟨.OpConstantComposite, [3, 5, 4, 4]⟩

/-- Concrete module for the null-constant witness: a pointer type of
storage class PhysicalStorageBuffer. -/
def c5State : ValidationState :=
  mkState [⟨.OpTypeFloat, [1, 32]⟩, ⟨.OpTypePointer, [2, 5349, 1]⟩]

/-- The null constant of the `c5State` module. -/
def c5Inst : Inst := ⟨.OpConstantNull, [2, 3]⟩

/-- Concrete module for the spec-constant crash input: the declared type
id 9 has no definition. -/
def c6SpecState : ValidationState := mkState [⟨.OpSpecConstant, [9, 2, 0]⟩]

/-- The spec constant of the `c6SpecState` module. -/
def c6SpecInst : Inst := ⟨.OpSpecConstant, [9, 2, 0]⟩

/-- Concrete module for the call crash input: the callee's result-type
id 9 has no definition. -/
def c6CallState : ValidationState :=
  mkState [⟨.OpFunction, [9, 4, 0, 10]⟩, ⟨.OpFunctionCall, [3, 5, 4]⟩]

/-- The call instruction of the `c6CallState` module. -/
def c6CallInst : Inst := ⟨.OpFunctionCall, [3, 5, 4]⟩

/-- Concrete module for the cooperative-matrix crash input: the matrix
operand id 42 has no definition. -/
def c6CoopState : ValidationState :=
  mkState [⟨.OpFunction, [7, 6, 0, 11]⟩,
    ⟨.OpCooperativeMatrixPerElementOpNV, [7, 8, 42, 6]⟩]

/-- The per-element operation of the `c6CoopState` module. -/
def c6CoopInst : Inst := ⟨.OpCooperativeMatrixPerElementOpNV, [7, 8, 42, 6]⟩

/-- Concrete module for the narrow-constant witness: a 16-bit integer
constant under the Shader capability, with the limited-use query
answering true. -/
def c8State : ValidationState :=
  ⟨[⟨.OpTypeInt, [5, 16, 0]⟩, ⟨.OpConstant, [5, 6, 0]⟩], [.Shader],
    ⟨false, false⟩, ⟨false, false⟩, .Logical, fun _ => [],
    fun _ => (false, false, 0), fun _ => none, fun _ => true,
    fun _ _ => false, fun _ => 0, fun _ => false, fun _ => false,
    fun _ => 0⟩

/-- The 16-bit constant of the `c8State` module. -/
def c8Inst : Inst := ⟨.OpConstant, [5, 6, 0]⟩

/-- Concrete module for the matrix-composite witness: two structurally
identical but distinct vector types; the matrix declares column type 2
while one constituent has type 22. -/
def c9State : ValidationState :=
  mkState [⟨.OpTypeFloat, [1, 32]⟩, ⟨.OpTypeVector, [2, 1, 2]⟩,
    ⟨.OpTypeVector, [22, 1, 2]⟩, ⟨.OpTypeMatrix, [3, 2, 2]⟩,
    ⟨.OpUndef, [22, 4]⟩, ⟨.OpUndef, [2, 5]⟩]

/-- The matrix constant of the `c9State` module. -/
def c9Inst : Inst := ⟨.OpConstantComposite, [3, 6, 4, 5]⟩

/-- Concrete module for the HLSL-legalization witness: a call argument
that is a call result (not a memory object declaration) of a
Workgroup-storage pointer type, with `before_hlsl_legalization` set and
no variable-pointer capabilities. -/
def c10State : ValidationState :=
  ⟨[⟨.OpTypeFloat, [1, 32]⟩, ⟨.OpTypePointer, [2, 4, 1]⟩,
    ⟨.OpFunctionCall, [2, 3, 9]⟩], [], ⟨false, false⟩, ⟨false, true⟩,
    .Logical, fun _ => [], fun _ => (false, false, 0), fun _ => none,
    fun _ => false, fun _ _ => false, fun _ => 0, fun _ => false,
    fun _ => false, fun _ => 0⟩

/-- A found definition carries exactly the id it was looked up by. -/
theorem findDef_id {st : ValidationState} {i : Nat} {e : Inst}
    (h : st.findDef i = some e) : e.id = i := by
  unfold ValidationState.findDef at h
  split at h
  · exact absurd h (by simp)
  · simpa using List.find?_some h

/-- Decoding inverts the opcode encoding on the modelled opcodes. -/
theorem decodeOp_code (op : Op) : decodeOp op.code = op := by
  cases op <;> rfl

/-- C8: for every constant-defining instruction, when the Shader
capability is active, the result type is not a pointer type and it
contains a limited-use 8- or 16-bit numeric component, the constant pass
rejects with INVALID_ID; the rejection comes after and in addition to
the per-opcode rules, which it leaves untouched, and a succeeding
dispatch can never make the pass succeed. -/
theorem C8_limited_use_constant_rejection (fuel : Nat) (st : ValidationState)
    (inst : Inst)
    (h1 : spvOpcodeIsConstant inst.op = true)
    (h2 : st.hasCapability .Shader = true)
    (h3 : st.isPointerType inst.typeId = false)
    (h4 : st.containsLimitedUse inst.typeId = true) :
    (constantDispatchF fuel st inst = some .ok →
      constantPassF fuel st inst = some (.err ⟨.INVALID_ID, 0⟩)) ∧
    (∀ d, constantDispatchF fuel st inst = some (.err d) →
      constantPassF fuel st inst = some (.err d)) ∧
    constantPassF fuel st inst ≠ some .ok := by
  refine ⟨?_, ?_, ?_⟩
  · intro h
    simp [constantPassF, h, h1, h2, h3, h4]
  · intro d h
    simp [constantPassF, h]
  · intro hcontra
    unfold constantPassF at hcontra
    cases h : constantDispatchF fuel st inst with
    | none => rw [h] at hcontra; exact Option.noConfusion hcontra
    | some v =>
      rw [h] at hcontra
      cases v with
      | ok => simp [h1, h2, h3, h4] at hcontra
      | err d => exact VRes.noConfusion (Option.some.injEq _ _ ▸ hcontra)
      | crash => exact VRes.noConfusion (Option.some.injEq _ _ ▸ hcontra)

/-- Witness for C8 at a concrete 16-bit integer constant under Shader. -/
theorem C8_limited_use_constant_rejection_witness :
    constantPassF 1 c8State c8Inst = some (.err ⟨.INVALID_ID, 0⟩) :=
  (C8_limited_use_constant_rejection 1 c8State c8Inst rfl rfl (by decide)
    rfl).1 (by decide)

/-- C6 is false of the code: at each of the three cited sites the null
result of `FindDef` on an undefined id is dereferenced, so validation
faults instead of producing a diagnostic.  Each conjunct evaluates the
validator on a concrete module exhibiting the undefined id. -/
theorem C6_undefined_id_lookup_crashes :
    validateSpecConstant c6SpecState c6SpecInst = .crash ∧
    validateFunctionCall c6CallState c6CallInst = .crash ∧
    validateCooperativeMatrixPerElementOp c6CoopState c6CoopInst = .crash := by
  refine ⟨by decide, by decide, by decide⟩

/-- C7 is false of the code for the nullability traversal: on the cyclic
type graph consisting of a struct whose member type id is the struct
itself, `IsTypeNullable` recurses past every depth bound, i.e. the
recursion is not bounded by any visited-set or depth cap and does not
terminate. -/
theorem C7_nullability_recursion_unbounded (fuel : Nat) :
    isTypeNullableF cyclicState fuel cyclicStruct.words = none := by
  induction fuel with
  | zero => simp [isTypeNullableF]
  | succ n ih =>
    rw [isTypeNullableF]
    show nullableMembersF cyclicState n (cyclicStruct.words.drop 2) = none
    have h2 : cyclicStruct.words.drop 2 = [1] := rfl
    rw [h2, nullableMembersF]
    have h3 : cyclicState.findDef 1 = some cyclicStruct := by decide
    rw [h3]
    simp [ih]

/-- C2: for a call argument checked under the Logical addressing model
with `relax_logical_pointer` disabled, whose declared parameter type is
a typed or untyped pointer, whose type matches exactly, and which is a
variable (a memory object declaration): the check succeeds iff the
parameter's storage class is UniformConstant, Function, Private,
Workgroup or AtomicCounter, or StorageBuffer with the variable-pointers
feature; StorageBuffer without the feature and every other storage
class are rejected with INVALID_ID naming the argument id. -/
theorem C2_call_pointer_storage_class
    (st : ValidationState) (argId paramTypeId : Nat)
    (argument argument_type parameter_type : Inst)
    (hAM : st.addressing_model = .Logical)
    (hRelax : st.options.relax_logical_pointer = false)
    (hArg : st.findDef argId = some argument)
    (hArgTy : st.findDef argument.typeId = some argument_type)
    (hParamTy : st.findDef paramTypeId = some parameter_type)
    (hPtr : parameter_type.op = .OpTypePointer ∨
      parameter_type.op = .OpTypeUntypedPointerKHR)
    (hMatch : argument_type.id = parameter_type.id)
    (hVar : argument.op = .OpVariable) :
    (checkArg st argId paramTypeId = .ok ↔
      (parameter_type.args.getD 1 0 = scUniformConstant ∨
       parameter_type.args.getD 1 0 = scFunction ∨
       parameter_type.args.getD 1 0 = scPrivate ∨
       parameter_type.args.getD 1 0 = scWorkgroup ∨
       parameter_type.args.getD 1 0 = scAtomicCounter ∨
       (parameter_type.args.getD 1 0 = scStorageBuffer ∧
        st.features.variable_pointers = true))) ∧
    (parameter_type.args.getD 1 0 = scStorageBuffer →
      st.features.variable_pointers = false →
      checkArg st argId paramTypeId = .err ⟨.INVALID_ID, argId⟩) ∧
    (¬ (parameter_type.args.getD 1 0 = scUniformConstant ∨
        parameter_type.args.getD 1 0 = scFunction ∨
        parameter_type.args.getD 1 0 = scPrivate ∨
        parameter_type.args.getD 1 0 = scWorkgroup ∨
        parameter_type.args.getD 1 0 = scAtomicCounter ∨
        parameter_type.args.getD 1 0 = scStorageBuffer) →
      checkArg st argId paramTypeId = .err ⟨.INVALID_ID, argId⟩) := by
  have hmem : ∀ sc, memoryObjectCheck st argument argId sc = .ok := by
    intro sc
    simp [memoryObjectCheck, hVar]
  have hform : checkArg st argId paramTypeId =
      (if parameter_type.args.getD 1 0 = scUniformConstant ∨
          parameter_type.args.getD 1 0 = scFunction ∨
          parameter_type.args.getD 1 0 = scPrivate ∨
          parameter_type.args.getD 1 0 = scWorkgroup ∨
          parameter_type.args.getD 1 0 = scAtomicCounter then .ok
       else if parameter_type.args.getD 1 0 = scStorageBuffer then
         (if st.features.variable_pointers = false then
           .err ⟨.INVALID_ID, argId⟩ else .ok)
       else .err ⟨.INVALID_ID, argId⟩) := by
    rcases hPtr with h | h <;>
      simp [checkArg, hArg, hArgTy, hParamTy, hMatch, hAM, hRelax, h, hmem]
  refine ⟨?_, ?_, ?_⟩
  · rw [hform]
    by_cases h1 : parameter_type.args.getD 1 0 = scUniformConstant ∨
        parameter_type.args.getD 1 0 = scFunction ∨
        parameter_type.args.getD 1 0 = scPrivate ∨
        parameter_type.args.getD 1 0 = scWorkgroup ∨
        parameter_type.args.getD 1 0 = scAtomicCounter
    · rw [if_pos h1]
      exact ⟨fun _ => by tauto, fun _ => rfl⟩
    · rw [if_neg h1]
      by_cases h2 : parameter_type.args.getD 1 0 = scStorageBuffer
      · rw [if_pos h2]
        by_cases h3 : st.features.variable_pointers = false
        · rw [if_pos h3]
          refine ⟨fun hc => absurd hc (by simp), fun hr => ?_⟩
          rcases hr with h | h | h | h | h | ⟨_, hvp⟩
          · exact absurd (by tauto) h1
          · exact absurd (by tauto) h1
          · exact absurd (by tauto) h1
          · exact absurd (by tauto) h1
          · exact absurd (by tauto) h1
          · rw [hvp] at h3; exact absurd h3 (by simp)
        · rw [if_neg h3]
          refine ⟨fun _ => ?_, fun _ => rfl⟩
          exact Or.inr (Or.inr (Or.inr (Or.inr (Or.inr
            ⟨h2, by revert h3; cases st.features.variable_pointers <;> simp⟩))))
      · rw [if_neg h2]
        refine ⟨fun hc => absurd hc (by simp), fun hr => ?_⟩
        rcases hr with h | h | h | h | h | ⟨hsb, _⟩
        · exact absurd (by tauto) h1
        · exact absurd (by tauto) h1
        · exact absurd (by tauto) h1
        · exact absurd (by tauto) h1
        · exact absurd (by tauto) h1
        · exact absurd hsb h2
  · intro hsb hvp
    rw [hform]
    have h1 : ¬ (parameter_type.args.getD 1 0 = scUniformConstant ∨
        parameter_type.args.getD 1 0 = scFunction ∨
        parameter_type.args.getD 1 0 = scPrivate ∨
        parameter_type.args.getD 1 0 = scWorkgroup ∨
        parameter_type.args.getD 1 0 = scAtomicCounter) := by
      rw [hsb]
      decide
    rw [if_neg h1, if_pos hsb, if_pos hvp]
  · intro h1
    have h2 : ¬ (parameter_type.args.getD 1 0 = scUniformConstant ∨
        parameter_type.args.getD 1 0 = scFunction ∨
        parameter_type.args.getD 1 0 = scPrivate ∨
        parameter_type.args.getD 1 0 = scWorkgroup ∨
        parameter_type.args.getD 1 0 = scAtomicCounter) := by tauto
    have h3 : parameter_type.args.getD 1 0 ≠ scStorageBuffer := by tauto
    rw [hform]
    rw [if_neg h2, if_neg h3]

/-- Witness for C2 at a Function-storage pointer variable argument. -/
theorem C2_call_pointer_storage_class_witness : checkArg c2State 3 2 = .ok :=
  (C2_call_pointer_storage_class c2State 3 2 ⟨.OpVariable, [2, 3, 7]⟩
    ⟨.OpTypePointer, [2, 7, 1]⟩ ⟨.OpTypePointer, [2, 7, 1]⟩ rfl rfl
    (by decide) (by decide) (by decide) (Or.inl rfl) rfl rfl).1.mpr
    (Or.inr (Or.inl (by decide)))

/-- C10: with `before_hlsl_legalization` enabled, under the Logical
addressing model without `relax_logical_pointer`, an exactly-typed
pointer argument that is not a variable, untyped variable or function
parameter is accepted iff the storage-class rule alone passes — the
memory-object-declaration requirement is waived, with no need for
variable-pointer capabilities. -/
theorem C10_hlsl_legalization_waives_memory_object
    (st : ValidationState) (argId paramTypeId : Nat)
    (argument argument_type parameter_type : Inst)
    (hAM : st.addressing_model = .Logical)
    (hRelax : st.options.relax_logical_pointer = false)
    (hBhl : st.options.before_hlsl_legalization = true)
    (hArg : st.findDef argId = some argument)
    (hArgTy : st.findDef argument.typeId = some argument_type)
    (hParamTy : st.findDef paramTypeId = some parameter_type)
    (hPtr : parameter_type.op = .OpTypePointer ∨
      parameter_type.op = .OpTypeUntypedPointerKHR)
    (hMatch : argument_type.id = parameter_type.id)
    (hNotDecl : argument.op ≠ .OpVariable ∧
      argument.op ≠ .OpUntypedVariableKHR ∧
      argument.op ≠ .OpFunctionParameter) :
    checkArg st argId paramTypeId = .ok ↔
      (parameter_type.args.getD 1 0 = scUniformConstant ∨
       parameter_type.args.getD 1 0 = scFunction ∨
       parameter_type.args.getD 1 0 = scPrivate ∨
       parameter_type.args.getD 1 0 = scWorkgroup ∨
       parameter_type.args.getD 1 0 = scAtomicCounter ∨
       (parameter_type.args.getD 1 0 = scStorageBuffer ∧
        st.features.variable_pointers = true)) := by
  have hmem : ∀ sc, memoryObjectCheck st argument argId sc = .ok := by
    intro sc
    simp [memoryObjectCheck, hBhl]
  have hform : checkArg st argId paramTypeId =
      (if parameter_type.args.getD 1 0 = scUniformConstant ∨
          parameter_type.args.getD 1 0 = scFunction ∨
          parameter_type.args.getD 1 0 = scPrivate ∨
          parameter_type.args.getD 1 0 = scWorkgroup ∨
          parameter_type.args.getD 1 0 = scAtomicCounter then .ok
       else if parameter_type.args.getD 1 0 = scStorageBuffer then
         (if st.features.variable_pointers = false then
           .err ⟨.INVALID_ID, argId⟩ else .ok)
       else .err ⟨.INVALID_ID, argId⟩) := by
    rcases hPtr with h | h <;>
      simp [checkArg, hArg, hArgTy, hParamTy, hMatch, hAM, hRelax, h, hmem]
  rw [hform]
  by_cases h1 : parameter_type.args.getD 1 0 = scUniformConstant ∨
      parameter_type.args.getD 1 0 = scFunction ∨
      parameter_type.args.getD 1 0 = scPrivate ∨
      parameter_type.args.getD 1 0 = scWorkgroup ∨
      parameter_type.args.getD 1 0 = scAtomicCounter
  · rw [if_pos h1]
    exact ⟨fun _ => by tauto, fun _ => rfl⟩
  · rw [if_neg h1]
    by_cases h2 : parameter_type.args.getD 1 0 = scStorageBuffer
    · rw [if_pos h2]
      by_cases h3 : st.features.variable_pointers = false
      · rw [if_pos h3]
        refine ⟨fun hc => absurd hc (by simp), fun hr => ?_⟩
        rcases hr with h | h | h | h | h | ⟨_, hvp⟩
        · exact absurd (by tauto) h1
        · exact absurd (by tauto) h1
        · exact absurd (by tauto) h1
        · exact absurd (by tauto) h1
        · exact absurd (by tauto) h1
        · rw [hvp] at h3; exact absurd h3 (by simp)
      · rw [if_neg h3]
        refine ⟨fun _ => ?_, fun _ => rfl⟩
        exact Or.inr (Or.inr (Or.inr (Or.inr (Or.inr
          ⟨h2, by revert h3; cases st.features.variable_pointers <;> simp⟩))))
    · rw [if_neg h2]
      refine ⟨fun hc => absurd hc (by simp), fun hr => ?_⟩
      rcases hr with h | h | h | h | h | ⟨hsb, _⟩
      · exact absurd (by tauto) h1
      · exact absurd (by tauto) h1
      · exact absurd (by tauto) h1
      · exact absurd (by tauto) h1
      · exact absurd (by tauto) h1
      · exact absurd hsb h2

/-- Witness for C10 at a Workgroup pointer argument produced by a call,
accepted without any variable-pointer capability. -/
theorem C10_hlsl_legalization_waives_memory_object_witness :
    checkArg c10State 3 2 = .ok :=
  (C10_hlsl_legalization_waives_memory_object c10State 3 2
    ⟨.OpFunctionCall, [2, 3, 9]⟩ ⟨.OpTypePointer, [2, 4, 1]⟩
    ⟨.OpTypePointer, [2, 4, 1]⟩ rfl rfl rfl (by decide) (by decide)
    (by decide) (Or.inl rfl) rfl
    ⟨by decide, by decide, by decide⟩).mpr
    (Or.inr (Or.inr (Or.inr (Or.inl (by decide)))))

/-- The array constituent loop succeeds iff every constituent resolves
to a constant-or-undef whose result-type id is the element type id
(assuming each resolved constituent's type id is itself defined). -/
theorem arrayLoop_ok_iff (st : ValidationState) (elemTyId : Nat) :
    ∀ cs : List Nat,
    (∀ cid c, cid ∈ cs → st.findDef cid = some c →
      (st.findDef c.typeId).isSome) →
    (arrayLoop st elemTyId cs = .ok ↔
      ∀ cid ∈ cs, ∃ c, st.findDef cid = some c ∧
        spvOpcodeIsConstantOrUndef c.op = true ∧ c.typeId = elemTyId)
  | [], _ => by simp [arrayLoop]
  | cid :: rest, hC => by
    have ihr := arrayLoop_ok_iff st elemTyId rest
      (fun x c hx hc => hC x c (List.mem_cons_of_mem _ hx) hc)
    cases hdef : st.findDef cid with
    | none =>
      constructor
      · intro h
        rw [arrayLoop, hdef] at h
        exact absurd h (by simp)
      · intro hr
        rcases hr cid (List.mem_cons_self _ _) with ⟨c, hc, _⟩
        rw [hdef] at hc
        exact Option.noConfusion hc
    | some c =>
      by_cases hcu : spvOpcodeIsConstantOrUndef c.op = true
      · have hts : (st.findDef c.typeId).isSome :=
          hC cid c (List.mem_cons_self _ _) hdef
        rcases Option.isSome_iff_exists.mp hts with ⟨ct, hct⟩
        have hcid : ct.id = c.typeId := findDef_id hct
        by_cases heq : elemTyId = ct.id
        · have hred : arrayLoop st elemTyId (cid :: rest) =
              arrayLoop st elemTyId rest := by
            simp [arrayLoop, hdef, hcu, hct, heq]
          rw [hred, ihr]
          constructor
          · intro h x hx
            rcases List.mem_cons.mp hx with rfl | hx2
            · exact ⟨c, hdef, hcu, by rw [← hcid, ← heq]⟩
            · exact h x hx2
          · intro h x hx
            exact h x (List.mem_cons_of_mem _ hx)
        · have hred : arrayLoop st elemTyId (cid :: rest) =
              .err ⟨.INVALID_ID, cid⟩ := by
            simp [arrayLoop, hdef, hcu, hct, heq]
          rw [hred]
          constructor
          · intro h
            exact absurd h (by simp)
          · intro hr
            rcases hr cid (List.mem_cons_self _ _) with ⟨c2, hc2, _, hty⟩
            rw [hdef] at hc2
            injection hc2 with he
            subst he
            exact (heq (by rw [hcid, hty])).elim
      · have hred : arrayLoop st elemTyId (cid :: rest) =
            .err ⟨.INVALID_ID, cid⟩ := by
          simp [arrayLoop, hdef, hcu]
        rw [hred]
        constructor
        · intro h
          exact absurd h (by simp)
        · intro hr
          rcases hr cid (List.mem_cons_self _ _) with ⟨c2, hc2, hcu2, _⟩
          rw [hdef] at hc2
          injection hc2 with he
          subst he
          exact (hcu hcu2).elim

/-- C4: for a composite constant whose result type is an array whose
length operand does not evaluate to a compile-time 32-bit integer
constant, the count check is skipped for every constituent count, and
the instruction is accepted iff every constituent is a constant-or-undef
whose result-type id equals the array's element type id. -/
theorem C4_array_unresolved_length_skips_count
    (st : ValidationState) (inst rt elemTy len : Inst)
    (hop : inst.op = .OpConstantComposite ∨ inst.op = .OpSpecConstantComposite)
    (hrt : st.findDef inst.typeId = some rt)
    (hstr : rt.op = .OpTypeArray)
    (helem : st.findDef (rt.args.getD 1 0) = some elemTy)
    (hlen : st.findDef (rt.args.getD 2 0) = some len)
    (hunres : ¬ ((st.evalInt32IfConst len.id).1 = true ∧
      (st.evalInt32IfConst len.id).2.1 = true))
    (hC : ∀ cid c, cid ∈ inst.args.drop 2 → st.findDef cid = some c →
      (st.findDef c.typeId).isSome) :
    validateConstantComposite st inst = .ok ↔
      ∀ cid ∈ inst.args.drop 2, ∃ c, st.findDef cid = some c ∧
        spvOpcodeIsConstantOrUndef c.op = true ∧
        c.typeId = rt.args.getD 1 0 := by
  have hcomp : isCompositeType rt = true := by
    simp [isCompositeType, hstr, spvOpcodeIsComposite]
  have helemid : elemTy.id = rt.args.getD 1 0 := findDef_id helem
  have hcond : ¬ ((st.evalInt32IfConst len.id).1 = true ∧
      (st.evalInt32IfConst len.id).2.1 = true ∧
      (st.evalInt32IfConst len.id).2.2 ≠ inst.words.length - 3) :=
    fun h => hunres ⟨h.1, h.2.1⟩
  have key : validateConstantComposite st inst =
      arrayLoop st elemTy.id (inst.args.drop 2) := by
    simp only [validateConstantComposite, hrt, hcomp, hstr, helem, hlen,
      not_true, if_false]
    rw [if_neg hcond]
  rw [key, arrayLoop_ok_iff st elemTy.id _ hC, helemid]

/-- Witness for C4: a two-element array constant over a
spec-constant-sized array type is accepted. -/
theorem C4_array_unresolved_length_skips_count_witness :
    validateConstantComposite c4State c4Inst = .ok :=
  (C4_array_unresolved_length_skips_count c4State c4Inst
    ⟨.OpTypeArray, [3, 1, 2]⟩ ⟨.OpTypeInt, [1, 32, 0]⟩
    ⟨.OpSpecConstant, [1, 2, 3]⟩ (Or.inl rfl) (by decide) rfl (by decide)
    (by decide) (by decide)
    (fun cid c hcid hc => by
      have h4 : cid = 4 := by
        rcases List.mem_cons.mp hcid with h | h
        · exact h
        · simpa using h
      subst h4
      rw [show c4State.findDef 4 = some ⟨.OpConstant, [1, 4, 7]⟩ by decide]
        at hc
      injection hc with he
      subst he
      decide)).mpr
    (fun cid hcid => by
      have h4 : cid = 4 := by
        rcases List.mem_cons.mp hcid with h | h
        · exact h
        · simpa using h
      subst h4
      exact ⟨⟨.OpConstant, [1, 4, 7]⟩, by decide, by decide, by decide⟩)

/-- The matrix constituent loop succeeds iff every constituent resolves
to a constant-or-undef whose resolved type has the column type's opcode,
component type id and component count (assuming the constituent type and
its component type resolve); the constituent type's own id is never
compared. -/
theorem matrixLoop_ok_iff (st : ValidationState) (colOp : Op)
    (compTyId compCount : Nat) :
    ∀ cs : List Nat,
    (∀ cid c, cid ∈ cs → st.findDef cid = some c →
      (st.findDef c.typeId).isSome) →
    (∀ cid c v, cid ∈ cs → st.findDef cid = some c →
      st.findDef c.typeId = some v → (st.findDef (v.args.getD 1 0)).isSome) →
    (matrixLoop st colOp compTyId compCount cs = .ok ↔
      ∀ cid ∈ cs, ∃ c v, st.findDef cid = some c ∧
        spvOpcodeIsConstantOrUndef c.op = true ∧
        st.findDef c.typeId = some v ∧ v.op = colOp ∧
        v.args.getD 1 0 = compTyId ∧ v.words.getD 3 0 = compCount)
  | [], _, _ => by simp [matrixLoop]
  | cid :: rest, hC, hV => by
    have ihr := matrixLoop_ok_iff st colOp compTyId compCount rest
      (fun x c hx hc => hC x c (List.mem_cons_of_mem _ hx) hc)
      (fun x c v hx hc hv => hV x c v (List.mem_cons_of_mem _ hx) hc hv)
    cases hdef : st.findDef cid with
    | none =>
      constructor
      · intro h
        rw [matrixLoop, hdef] at h
        exact absurd h (by simp)
      · intro hr
        rcases hr cid (List.mem_cons_self _ _) with ⟨c, _, hc, _⟩
        rw [hdef] at hc
        exact Option.noConfusion hc
    | some c =>
      by_cases hcu : spvOpcodeIsConstantOrUndef c.op = true
      · rcases Option.isSome_iff_exists.mp
          (hC cid c (List.mem_cons_self _ _) hdef) with ⟨v, hv⟩
        rcases Option.isSome_iff_exists.mp
          (hV cid c v (List.mem_cons_self _ _) hdef hv) with ⟨vct, hvct⟩
        have hvctid : vct.id = v.args.getD 1 0 := findDef_id hvct
        by_cases hop2 : colOp = v.op
        · by_cases hcty : compTyId = vct.id
          · by_cases hcnt : compCount = v.words.getD 3 0
            · have hred : matrixLoop st colOp compTyId compCount (cid :: rest) =
                  matrixLoop st colOp compTyId compCount rest := by
                simp only [matrixLoop, hdef, hcu, not_true, if_false, hv,
                  hvct]
                rw [if_neg (not_not_intro hop2), if_neg (not_not_intro hcty),
                  if_neg (not_not_intro hcnt)]
              rw [hred, ihr]
              constructor
              · intro h x hx
                rcases List.mem_cons.mp hx with rfl | hx2
                · exact ⟨c, v, hdef, hcu, hv, hop2.symm,
                    by rw [← hvctid, ← hcty], hcnt.symm⟩
                · exact h x hx2
              · intro h x hx
                exact h x (List.mem_cons_of_mem _ hx)
            · have hred : matrixLoop st colOp compTyId compCount (cid :: rest) =
                  .err ⟨.INVALID_ID, cid⟩ := by
                simp only [matrixLoop, hdef, hcu, not_true, if_false, hv, hvct]
                rw [if_neg (not_not_intro hop2), if_neg (not_not_intro hcty),
                  if_pos hcnt]
              rw [hred]
              refine ⟨fun h => absurd h (by simp), fun hr => ?_⟩
              rcases hr cid (List.mem_cons_self _ _) with
                ⟨c2, v2, hc2, _, hv2, _, _, hcnt2⟩
              rw [hdef] at hc2
              injection hc2 with he
              subst he
              rw [hv] at hv2
              injection hv2 with he2
              subst he2
              exact (hcnt hcnt2.symm).elim
          · have hred : matrixLoop st colOp compTyId compCount (cid :: rest) =
                .err ⟨.INVALID_ID, cid⟩ := by
              simp only [matrixLoop, hdef, hcu, not_true, if_false, hv, hvct]
              rw [if_neg (not_not_intro hop2), if_pos hcty]
            rw [hred]
            refine ⟨fun h => absurd h (by simp), fun hr => ?_⟩
            rcases hr cid (List.mem_cons_self _ _) with
              ⟨c2, v2, hc2, _, hv2, _, hcty2, _⟩
            rw [hdef] at hc2
            injection hc2 with he
            subst he
            rw [hv] at hv2
            injection hv2 with he2
            subst he2
            exact (hcty (by rw [hvctid, hcty2])).elim
        · have hred : matrixLoop st colOp compTyId compCount (cid :: rest) =
              .err ⟨.INVALID_ID, cid⟩ := by
            simp only [matrixLoop, hdef, hcu, not_true, if_false, hv]
            rw [if_pos hop2]
          rw [hred]
          refine ⟨fun h => absurd h (by simp), fun hr => ?_⟩
          rcases hr cid (List.mem_cons_self _ _) with
            ⟨c2, v2, hc2, _, hv2, hop3, _, _⟩
          rw [hdef] at hc2
          injection hc2 with he
          subst he
          rw [hv] at hv2
          injection hv2 with he2
          subst he2
          exact (hop2 hop3.symm).elim
      · have hred : matrixLoop st colOp compTyId compCount (cid :: rest) =
            .err ⟨.INVALID_ID, cid⟩ := by
          simp only [matrixLoop, hdef]
          rw [if_pos hcu]
        rw [hred]
        refine ⟨fun h => absurd h (by simp), fun hr => ?_⟩
        rcases hr cid (List.mem_cons_self _ _) with ⟨c2, v2, hc2, hcu2, _⟩
        rw [hdef] at hc2
        injection hc2 with he
        subst he
        exact (hcu hcu2).elim

/-- C9: for a composite constant whose result type is a matrix, the
validator accepts iff the constituent count matches the column count and
every constituent is a constant-or-undef whose resolved type has the
column type's opcode, its component type id and its component count —
id-equality of the constituent's type with the declared column type is
never required. -/
theorem C9_matrix_constituent_structural_match
    (st : ValidationState) (inst rt colTy compTy : Inst)
    (hop : inst.op = .OpConstantComposite ∨ inst.op = .OpSpecConstantComposite)
    (hrt : st.findDef inst.typeId = some rt)
    (hmat : rt.op = .OpTypeMatrix)
    (hcol : st.findDef (rt.words.getD 2 0) = some colTy)
    (hcomp : st.findDef (colTy.args.getD 1 0) = some compTy)
    (hC : ∀ cid c, cid ∈ inst.args.drop 2 → st.findDef cid = some c →
      (st.findDef c.typeId).isSome)
    (hV : ∀ cid c v, cid ∈ inst.args.drop 2 → st.findDef cid = some c →
      st.findDef c.typeId = some v →
      (st.findDef (v.args.getD 1 0)).isSome) :
    validateConstantComposite st inst = .ok ↔
      (rt.args.getD 2 0 = inst.words.length - 3 ∧
       ∀ cid ∈ inst.args.drop 2, ∃ c v, st.findDef cid = some c ∧
         spvOpcodeIsConstantOrUndef c.op = true ∧
         st.findDef c.typeId = some v ∧ v.op = colTy.op ∧
         v.args.getD 1 0 = colTy.args.getD 1 0 ∧
         v.words.getD 3 0 = colTy.args.getD 2 0) := by
  have hcomp2 : isCompositeType rt = true := by
    simp [isCompositeType, hmat, spvOpcodeIsComposite]
  have hcompid : compTy.id = colTy.args.getD 1 0 := findDef_id hcomp
  by_cases hcount : rt.args.getD 2 0 = inst.words.length - 3
  · have key : validateConstantComposite st inst =
        matrixLoop st colTy.op compTy.id (colTy.args.getD 2 0)
          (inst.args.drop 2) := by
      simp only [validateConstantComposite, hrt, hcomp2, hmat, hcol, hcomp,
        not_true, if_false]
      rw [if_neg (not_not_intro hcount)]
    rw [key,
      matrixLoop_ok_iff st colTy.op compTy.id (colTy.args.getD 2 0) _ hC hV,
      hcompid]
    exact ⟨fun h => ⟨hcount, h⟩, fun h => h.2⟩
  · have key2 : validateConstantComposite st inst =
        .err ⟨.INVALID_ID, rt.id⟩ := by
      simp only [validateConstantComposite, hrt, hcomp2, hmat,
        not_true, if_false]
      rw [if_pos hcount]
    rw [key2]
    exact ⟨fun h => absurd h (by simp), fun hr => (hcount hr.1).elim⟩

/-- Witness for C9: a matrix constant is accepted although its first
constituent's type id (22) differs from the declared column type id
(2), the two being structurally identical vector types. -/
theorem C9_matrix_constituent_structural_match_witness :
    validateConstantComposite c9State c9Inst = .ok ∧
    (⟨.OpTypeVector, [22, 1, 2]⟩ : Inst).id ≠
      (⟨.OpTypeVector, [2, 1, 2]⟩ : Inst).id :=
  ⟨(C9_matrix_constituent_structural_match c9State c9Inst
    ⟨.OpTypeMatrix, [3, 2, 2]⟩ ⟨.OpTypeVector, [2, 1, 2]⟩
    ⟨.OpTypeFloat, [1, 32]⟩ (Or.inl rfl) (by decide) rfl (by decide)
    (by decide)
    (fun cid c hcid hc => by
      rcases List.mem_cons.mp hcid with h | h
      · subst h
        rw [show c9State.findDef 4 = some ⟨.OpUndef, [22, 4]⟩ by decide] at hc
        injection hc with he
        subst he
        decide
      · have h5 : cid = 5 := by simpa using h
        subst h5
        rw [show c9State.findDef 5 = some ⟨.OpUndef, [2, 5]⟩ by decide] at hc
        injection hc with he
        subst he
        decide)
    (fun cid c v hcid hc hv => by
      rcases List.mem_cons.mp hcid with h | h
      · subst h
        rw [show c9State.findDef 4 = some ⟨.OpUndef, [22, 4]⟩ by decide] at hc
        injection hc with he
        subst he
        rw [show c9State.findDef (Inst.typeId ⟨.OpUndef, [22, 4]⟩) =
          some ⟨.OpTypeVector, [22, 1, 2]⟩ by decide] at hv
        injection hv with he2
        subst he2
        decide
      · have h5 : cid = 5 := by simpa using h
        subst h5
        rw [show c9State.findDef 5 = some ⟨.OpUndef, [2, 5]⟩ by decide] at hc
        injection hc with he
        subst he
        rw [show c9State.findDef (Inst.typeId ⟨.OpUndef, [2, 5]⟩) =
          some ⟨.OpTypeVector, [2, 1, 2]⟩ by decide] at hv
        injection hv with he2
        subst he2
        decide)).mpr
    ⟨by decide, fun cid hcid => by
      rcases List.mem_cons.mp hcid with h | h
      · subst h
        exact ⟨⟨.OpUndef, [22, 4]⟩, ⟨.OpTypeVector, [22, 1, 2]⟩, by decide,
          by decide, by decide, by decide, by decide, by decide⟩
      · have h5 : cid = 5 := by simpa using h
        subst h5
        exact ⟨⟨.OpUndef, [2, 5]⟩, ⟨.OpTypeVector, [2, 1, 2]⟩, by decide,
          by decide, by decide, by decide, by decide, by decide⟩⟩,
    by decide⟩

/-- The struct constituent loop at member offset `k` succeeds iff the
constituent at each position resolves to a constant-or-undef whose
result-type id is the member type id at the same position (assuming the
member type ids and the resolved constituents' type ids are defined). -/
theorem structLoop_ok_iff (st : ValidationState) (rt : Inst) :
    ∀ (cs : List Nat) (k : Nat),
    (∀ i, i < cs.length → (st.findDef (rt.args.getD (k + i) 0)).isSome) →
    (∀ cid c, cid ∈ cs → st.findDef cid = some c →
      (st.findDef c.typeId).isSome) →
    (structLoop st rt k cs = .ok ↔
      ∀ i, i < cs.length → ∃ c, st.findDef (cs.getD i 0) = some c ∧
        spvOpcodeIsConstantOrUndef c.op = true ∧
        c.typeId = rt.args.getD (k + i) 0)
  | [], k, _, _ => by simp [structLoop]
  | cid :: rest, k, hM, hC => by
    have hM2 : ∀ i, i < rest.length →
        (st.findDef (rt.args.getD (k + 1 + i) 0)).isSome := by
      intro i hi
      have h := hM (i + 1) (Nat.succ_lt_succ hi)
      rwa [show k + (i + 1) = k + 1 + i by omega] at h
    have ihr := structLoop_ok_iff st rt rest (k + 1) hM2
      (fun x c hx hc => hC x c (List.mem_cons_of_mem _ hx) hc)
    cases hdef : st.findDef cid with
    | none =>
      constructor
      · intro h
        rw [structLoop, hdef] at h
        exact absurd h (by simp)
      · intro hr
        rcases hr 0 (by simp) with ⟨c, hc, _⟩
        rw [List.getD_cons_zero, hdef] at hc
        exact Option.noConfusion hc
    | some c =>
      by_cases hcu : spvOpcodeIsConstantOrUndef c.op = true
      · rcases Option.isSome_iff_exists.mp
          (hC cid c (List.mem_cons_self _ _) hdef) with ⟨ct, hct⟩
        have hctid : ct.id = c.typeId := findDef_id hct
        have hm0 := hM 0 (by simp)
        rw [Nat.add_zero] at hm0
        rcases Option.isSome_iff_exists.mp hm0 with ⟨mt, hmt⟩
        have hmtid : mt.id = rt.args.getD k 0 := findDef_id hmt
        by_cases heq : mt.id = ct.id
        · have hred : structLoop st rt k (cid :: rest) =
              structLoop st rt (k + 1) rest := by
            simp only [structLoop, hdef, hcu, not_true, if_false, hct, hmt]
            rw [if_neg (not_not_intro heq)]
          rw [hred, ihr]
          constructor
          · intro h i hi
            match i, hi with
            | 0, _ =>
              refine ⟨c, by rw [List.getD_cons_zero]; exact hdef, hcu, ?_⟩
              rw [Nat.add_zero, ← hmtid, heq, hctid]
            | i + 1, hi =>
              rcases h i (Nat.lt_of_succ_lt_succ hi) with ⟨c2, hc2, hcu2, hty2⟩
              refine ⟨c2, by rwa [List.getD_cons_succ], hcu2, ?_⟩
              rwa [show k + (i + 1) = k + 1 + i by omega]
          · intro h i hi
            rcases h (i + 1) (Nat.succ_lt_succ hi) with ⟨c2, hc2, hcu2, hty2⟩
            refine ⟨c2, by rwa [List.getD_cons_succ] at hc2, hcu2, ?_⟩
            rwa [show k + (i + 1) = k + 1 + i by omega] at hty2
        · have hred : structLoop st rt k (cid :: rest) =
              .err ⟨.INVALID_ID, cid⟩ := by
            simp only [structLoop, hdef, hcu, not_true, if_false, hct, hmt]
            rw [if_pos heq]
          rw [hred]
          refine ⟨fun h => absurd h (by simp), fun hr => ?_⟩
          rcases hr 0 (by simp) with ⟨c2, hc2, _, hty2⟩
          rw [List.getD_cons_zero, hdef] at hc2
          injection hc2 with he
          subst he
          rw [Nat.add_zero] at hty2
          exact (heq (by rw [hmtid, ← hty2, hctid])).elim
      · have hred : structLoop st rt k (cid :: rest) =
            .err ⟨.INVALID_ID, cid⟩ := by
          simp only [structLoop, hdef]
          rw [if_pos hcu]
        rw [hred]
        refine ⟨fun h => absurd h (by simp), fun hr => ?_⟩
        rcases hr 0 (by simp) with ⟨c2, hc2, hcu2, _⟩
        rw [List.getD_cons_zero, hdef] at hc2
        injection hc2 with he
        subst he
        exact (hcu hcu2).elim

/-- When the constituents before position `i` all pass and the one at
position `i` fails, the struct loop stops with INVALID_ID naming the
constituent at position `i`. -/
theorem structLoop_first_err (st : ValidationState) (rt : Inst) :
    ∀ (cs : List Nat) (k i : Nat),
    (∀ j, j < cs.length → (st.findDef (rt.args.getD (k + j) 0)).isSome) →
    (∀ cid c, cid ∈ cs → st.findDef cid = some c →
      (st.findDef c.typeId).isSome) →
    i < cs.length →
    (∀ j, j < i → ∃ c, st.findDef (cs.getD j 0) = some c ∧
      spvOpcodeIsConstantOrUndef c.op = true ∧
      c.typeId = rt.args.getD (k + j) 0) →
    ¬ (∃ c, st.findDef (cs.getD i 0) = some c ∧
      spvOpcodeIsConstantOrUndef c.op = true ∧
      c.typeId = rt.args.getD (k + i) 0) →
    structLoop st rt k cs = .err ⟨.INVALID_ID, cs.getD i 0⟩
  | [], _, i, _, _, hi, _, _ => absurd hi (by simp)
  | cid :: rest, k, 0, hM, hC, hi, _, hbad => by
    rw [List.getD_cons_zero]
    rw [Nat.add_zero] at hbad
    cases hdef : st.findDef cid with
    | none => simp only [structLoop, hdef]
    | some c =>
      by_cases hcu : spvOpcodeIsConstantOrUndef c.op = true
      · rcases Option.isSome_iff_exists.mp
          (hC cid c (List.mem_cons_self _ _) hdef) with ⟨ct, hct⟩
        have hctid : ct.id = c.typeId := findDef_id hct
        have hm0 := hM 0 (by simp)
        rw [Nat.add_zero] at hm0
        rcases Option.isSome_iff_exists.mp hm0 with ⟨mt, hmt⟩
        have hmtid : mt.id = rt.args.getD k 0 := findDef_id hmt
        have hne : mt.id ≠ ct.id := by
          intro he
          exact hbad ⟨c, by rw [List.getD_cons_zero]; exact hdef, hcu,
            by rw [← hctid, ← he, hmtid]⟩
        simp only [structLoop, hdef, hcu, not_true, if_false, hct, hmt]
        rw [if_pos hne]
      · simp only [structLoop, hdef]
        rw [if_pos hcu]
  | cid :: rest, k, i + 1, hM, hC, hi, hgood, hbad => by
    rcases hgood 0 (Nat.succ_pos _) with ⟨c, hc, hcu, hty⟩
    rw [List.getD_cons_zero] at hc
    rw [Nat.add_zero] at hty
    rcases Option.isSome_iff_exists.mp
      (hC cid c (List.mem_cons_self _ _) hc) with ⟨ct, hct⟩
    have hctid : ct.id = c.typeId := findDef_id hct
    have hm0 := hM 0 (by simp)
    rw [Nat.add_zero] at hm0
    rcases Option.isSome_iff_exists.mp hm0 with ⟨mt, hmt⟩
    have hmtid : mt.id = rt.args.getD k 0 := findDef_id hmt
    have heq : mt.id = ct.id := by rw [hmtid, hctid, hty]
    have hred : structLoop st rt k (cid :: rest) =
        structLoop st rt (k + 1) rest := by
      simp only [structLoop, hc, hcu, not_true, if_false, hct, hmt]
      rw [if_neg (not_not_intro heq)]
    rw [List.getD_cons_succ, hred]
    refine structLoop_first_err st rt rest (k + 1) i ?_
      (fun x c2 hx hc2 => hC x c2 (List.mem_cons_of_mem _ hx) hc2)
      (Nat.lt_of_succ_lt_succ hi) ?_ ?_
    · intro j hj
      have h := hM (j + 1) (Nat.succ_lt_succ hj)
      rwa [show k + (j + 1) = k + 1 + j by omega] at h
    · intro j hj
      rcases hgood (j + 1) (Nat.succ_lt_succ hj) with ⟨c2, hc2, hcu2, hty2⟩
      refine ⟨c2, by rwa [List.getD_cons_succ] at hc2, hcu2, ?_⟩
      rwa [show k + (j + 1) = k + 1 + j by omega] at hty2
    · intro hcon
      rcases hcon with ⟨c2, hc2, hcu2, hty2⟩
      refine hbad ⟨c2, by rwa [List.getD_cons_succ], hcu2, ?_⟩
      rwa [show k + (i + 1) = k + 1 + i by omega]

/-- C1: a struct-typed composite constant is accepted iff exactly as
many constituents as declared members are supplied and each constituent
resolves to a constant-or-undef whose result-type id equals the member
type id at the same position; a count mismatch is INVALID_ID naming the
result-type id, and a constituent violation is INVALID_ID naming the
first failing constituent. -/
theorem C1_struct_composite_validation (st : ValidationState) (inst rt : Inst)
    (hop : inst.op = .OpConstantComposite ∨ inst.op = .OpSpecConstantComposite)
    (hrt : st.findDef inst.typeId = some rt)
    (hstr : rt.op = .OpTypeStruct)
    (hM : ∀ i, i < (inst.args.drop 2).length →
      (st.findDef (rt.args.getD (1 + i) 0)).isSome)
    (hC : ∀ cid c, cid ∈ inst.args.drop 2 → st.findDef cid = some c →
      (st.findDef c.typeId).isSome) :
    (validateConstantComposite st inst = .ok ↔
      ((inst.args.drop 2).length = rt.args.length - 1 ∧
       ∀ i, i < (inst.args.drop 2).length →
         structConstituentOk st rt (inst.args.drop 2) i)) ∧
    ((inst.args.drop 2).length ≠ rt.args.length - 1 →
      validateConstantComposite st inst = .err ⟨.INVALID_ID, inst.typeId⟩) ∧
    (∀ i, i < (inst.args.drop 2).length →
      (inst.args.drop 2).length = rt.args.length - 1 →
      (∀ j, j < i → structConstituentOk st rt (inst.args.drop 2) j) →
      ¬ structConstituentOk st rt (inst.args.drop 2) i →
      validateConstantComposite st inst =
        .err ⟨.INVALID_ID, (inst.args.drop 2).getD i 0⟩) := by
  have hcomp : isCompositeType rt = true := by
    simp [isCompositeType, hstr, spvOpcodeIsComposite]
  have harith : rt.words.length - 2 = rt.args.length - 1 := by
    simp [Inst.words]
  have harith2 : inst.words.length - 3 = (inst.args.drop 2).length := by
    simp [Inst.words]
  by_cases hcount : (inst.args.drop 2).length = rt.args.length - 1
  · have hcond : ¬ (rt.words.length - 2 ≠ inst.words.length - 3) := by
      rw [harith, harith2, hcount]
      exact not_not_intro rfl
    have key : validateConstantComposite st inst =
        structLoop st rt 1 (inst.args.drop 2) := by
      simp only [validateConstantComposite, hrt, hcomp, hstr, not_true,
        if_false]
      rw [if_neg hcond]
    refine ⟨?_, ?_, ?_⟩
    · rw [key, structLoop_ok_iff st rt (inst.args.drop 2) 1 hM hC]
      simp only [structConstituentOk]
      exact ⟨fun h => ⟨hcount, h⟩, fun h => h.2⟩
    · intro hcon
      exact (hcon hcount).elim
    · intro i hi _ hgood hbad
      rw [key]
      refine structLoop_first_err st rt (inst.args.drop 2) 1 i hM hC hi ?_ ?_
      · intro j hj
        have h := hgood j hj
        rwa [structConstituentOk] at h
      · intro hcon
        exact hbad (by rwa [structConstituentOk])
  · have hcond : rt.words.length - 2 ≠ inst.words.length - 3 := by
      rw [harith, harith2]
      exact fun h => hcount h.symm
    have key2 : validateConstantComposite st inst =
        .err ⟨.INVALID_ID, inst.typeId⟩ := by
      simp only [validateConstantComposite, hrt, hcomp, hstr, not_true,
        if_false]
      rw [if_pos hcond]
    refine ⟨?_, fun _ => key2, ?_⟩
    · rw [key2]
      exact ⟨fun h => absurd h (by simp), fun hr => (hcount hr.1).elim⟩
    · intro i hi hcon
      exact (hcount hcon).elim

/-- Witness for C1: a two-member struct constant with matching
constituents is accepted. -/
theorem C1_struct_composite_validation_witness :
    validateConstantComposite c1State c1Inst = .ok :=
  (C1_struct_composite_validation c1State c1Inst ⟨.OpTypeStruct, [3, 1, 2]⟩
    (Or.inl rfl) (by decide) rfl (by decide)
    (fun cid c hcid hc => by
      rcases List.mem_cons.mp hcid with h | h
      · subst h
        rw [show c1State.findDef 4 = some ⟨.OpConstant, [1, 4, 5]⟩ by decide]
          at hc
        injection hc with he
        subst he
        decide
      · have h5 : cid = 5 := by simpa using h
        subst h5
        rw [show c1State.findDef 5 = some ⟨.OpUndef, [2, 5]⟩ by decide] at hc
        injection hc with he
        subst he
        decide)).1.mpr
    ⟨by decide, fun i hi => by
      match i, hi with
      | 0, _ =>
        exact ⟨⟨.OpConstant, [1, 4, 5]⟩, by decide, by decide, by decide⟩
      | 1, _ =>
        exact ⟨⟨.OpUndef, [2, 5]⟩, by decide, by decide, by decide⟩⟩

/-- When no `OpFunction` occurs at positions 1 to `n - 1`, the backward
scan cannot produce an `OpFunction` (position 0 is never examined). -/
theorem backScan_no_function (ordered : List Inst) :
    ∀ (n : Nat) (cur : Inst) (pidx : Nat),
    (∀ j, 1 ≤ j → j < n → (ordered.getD j dummyInst).op ≠ .OpFunction) →
    cur.op ≠ .OpFunction →
    (backScan ordered cur pidx n).1.op ≠ .OpFunction
  | 0, cur, pidx, _, hcur => by
    simp only [backScan]
    exact hcur
  | 1, cur, pidx, _, hcur => by
    simp only [backScan]
    exact hcur
  | n + 2, cur, pidx, h, hcur => by
    have hfi : (ordered.getD (n + 1) dummyInst).op ≠ .OpFunction :=
      h (n + 1) (by omega) (by omega)
    simp only [backScan]
    rw [if_neg hfi]
    exact backScan_no_function ordered (n + 1) _ _
      (fun j h1 h2 => h j h1 (by omega)) hfi

/-- When position `j` (with `1 ≤ j < n`) holds the nearest `OpFunction`
below `n`, the backward scan returns it together with the count of
`OpFunctionParameter` instructions strictly between `j` and `n`. -/
theorem backScan_finds (ordered : List Inst) :
    ∀ (n j : Nat) (cur : Inst) (pidx : Nat),
    1 ≤ j → j < n →
    (ordered.getD j dummyInst).op = .OpFunction →
    (∀ l, j < l → l < n → (ordered.getD l dummyInst).op ≠ .OpFunction) →
    backScan ordered cur pidx n =
      (ordered.getD j dummyInst, pidx + paramCountBetween ordered j n)
  | 0, j, _, _, h1, hj, _, _ => absurd hj (by omega)
  | 1, j, _, _, h1, hj, _, _ => absurd hj (by omega)
  | n + 2, j, cur, pidx, h1, hj, hFn, hno => by
    by_cases hje : j = n + 1
    · subst hje
      simp only [backScan]
      rw [if_pos hFn]
      have hz : paramCountBetween ordered (n + 1) (n + 2) = 0 := by
        simp [paramCountBetween]
      rw [hz]
      simp
    · have hjlt : j < n + 1 := by omega
      have hfi : (ordered.getD (n + 1) dummyInst).op ≠ .OpFunction :=
        hno (n + 1) (by omega) (by omega)
      have ih := backScan_finds ordered (n + 1) j
        (ordered.getD (n + 1) dummyInst)
        (if (ordered.getD (n + 1) dummyInst).op = .OpFunctionParameter then
          pidx + 1 else pidx)
        h1 hjlt hFn (fun l hl1 hl2 => hno l hl1 (by omega))
      have hsplit : paramCountBetween ordered j (n + 2) =
          paramCountBetween ordered j (n + 1) +
          (if (ordered.getD (n + 1) dummyInst).op = .OpFunctionParameter
            then 1 else 0) := by
        unfold paramCountBetween
        have hr : List.range' (j + 1) (n + 2 - (j + 1)) =
            List.range' (j + 1) (n + 1 - (j + 1)) ++ [n + 1] := by
          have hm : n + 2 - (j + 1) = (n + 1 - (j + 1)) + 1 := by omega
          have he : j + 1 + 1 * (n + 1 - (j + 1)) = n + 1 := by omega
          rw [hm, List.range'_concat, he]
        rw [hr, List.countP_append]
        by_cases hP : (ordered.getD (n + 1) dummyInst).op =
            .OpFunctionParameter
        · simp [List.countP_cons, hP]
        · simp [List.countP_cons, hP]
      simp only [backScan]
      rw [if_neg hfi, ih, hsplit]
      refine Prod.ext rfl ?_
      show _ = pidx + (_ + _)
      split <;> omega
  termination_by n => n

/-- C3: a function-parameter instruction at 0-based module position
`idx` is INVALID_LAYOUT when it is the very first instruction and also
whenever no `OpFunction` occurs among positions 1 to `idx - 1` (the scan
never examines position 0, so an `OpFunction` that would be the module's
first instruction is not found); otherwise, with the nearest preceding
`OpFunction` at position `j`, the derived parameter index is the number
of parameter instructions strictly between `j` and `idx`, and validation
succeeds iff that index lies within the function type's parameter list
and the parameter's result-type id equals the parameter type id at that
index. -/
theorem C3_function_parameter_position (st : ValidationState) (idx : Nat)
    (hop : (st.ordered_instructions.getD idx dummyInst).op =
      .OpFunctionParameter) :
    (idx = 0 →
      validateFunctionParameter st idx = .err ⟨.INVALID_LAYOUT, 0⟩) ∧
    ((∀ j, 1 ≤ j → j < idx →
        (st.ordered_instructions.getD j dummyInst).op ≠ .OpFunction) →
      validateFunctionParameter st idx = .err ⟨.INVALID_LAYOUT, 0⟩) ∧
    (∀ j ftype, 1 ≤ j → j < idx →
      (st.ordered_instructions.getD j dummyInst).op = .OpFunction →
      (∀ l, j < l → l < idx →
        (st.ordered_instructions.getD l dummyInst).op ≠ .OpFunction) →
      st.findDef ((st.ordered_instructions.getD j dummyInst).args.getD 3 0) =
        some ftype →
      2 ≤ ftype.args.length →
      (validateFunctionParameter st idx = .ok ↔
        (paramCountBetween st.ordered_instructions j idx + 2 <
            ftype.args.length ∧
         ∃ pt, st.findDef (ftype.args.getD
             (paramCountBetween st.ordered_instructions j idx + 2) 0) =
             some pt ∧
           (st.ordered_instructions.getD idx dummyInst).typeId = pt.id))) := by
  refine ⟨?_, ?_, ?_⟩
  · intro h
    subst h
    simp [validateFunctionParameter]
  · intro hno
    by_cases hidx : idx = 0
    · subst hidx
      simp [validateFunctionParameter]
    · have hcur : (st.ordered_instructions.getD idx dummyInst).op ≠
          .OpFunction := by
        rw [hop]
        exact fun h => Op.noConfusion h
      have hscan := backScan_no_function st.ordered_instructions idx
        (st.ordered_instructions.getD idx dummyInst) 0 hno hcur
      simp only [validateFunctionParameter]
      rw [if_neg hidx, if_pos hscan]
  · intro j ftype h1 hj hFn hno hft hlen
    have hidx : idx ≠ 0 := by omega
    have hscan := backScan_finds st.ordered_instructions idx j
      (st.ordered_instructions.getD idx dummyInst) 0 h1 hj hFn hno
    rw [Nat.zero_add] at hscan
    have hwords : ftype.words.length = ftype.args.length + 1 := by
      simp [Inst.words]
    have hkey : validateFunctionParameter st idx =
        (if 3 ≤ ftype.words.length ∧
            paramCountBetween st.ordered_instructions j idx + 3 ≥
              ftype.words.length then
          VRes.err ⟨.INVALID_ID, 0⟩
        else
          match st.findDef (ftype.args.getD
              (paramCountBetween st.ordered_instructions j idx + 2) 0) with
          | none => VRes.err ⟨.INVALID_ID,
              (st.ordered_instructions.getD idx dummyInst).typeId⟩
          | some pt =>
            if (st.ordered_instructions.getD idx dummyInst).typeId ≠ pt.id
            then VRes.err ⟨.INVALID_ID,
              (st.ordered_instructions.getD idx dummyInst).typeId⟩
            else VRes.ok) := by
      simp only [validateFunctionParameter]
      rw [if_neg hidx, hscan]
      simp only []
      rw [if_neg (not_not_intro hFn), hft]
    rw [hkey, hwords]
    by_cases hbound : paramCountBetween st.ordered_instructions j idx + 2 <
        ftype.args.length
    · have hcond : ¬ (3 ≤ ftype.args.length + 1 ∧
          paramCountBetween st.ordered_instructions j idx + 3 ≥
            ftype.args.length + 1) := by omega
      rw [if_neg hcond]
      cases hpt : st.findDef (ftype.args.getD
          (paramCountBetween st.ordered_instructions j idx + 2) 0) with
      | none =>
        constructor
        · intro h
          exact absurd h (by simp)
        · intro hr
          rcases hr with ⟨_, pt2, hpt2, _⟩
          exact Option.noConfusion hpt2
      | some pt =>
        by_cases hty :
            (st.ordered_instructions.getD idx dummyInst).typeId = pt.id
        · constructor
          · intro _
            exact ⟨hbound, pt, rfl, hty⟩
          · intro _
            simp [hty]
            simpa using hty
        · constructor
          · intro hcontra
            simp [hty] at hcontra
            exact absurd (by simpa using hcontra) hty
          · intro hr
            rcases hr with ⟨_, pt2, hpt2, hty2⟩
            injection hpt2 with he
            subst he
            exact (hty hty2).elim
    · have hcond2 : 3 ≤ ftype.args.length + 1 ∧
          paramCountBetween st.ordered_instructions j idx + 3 ≥
            ftype.args.length + 1 := by omega
      rw [if_pos hcond2]
      exact ⟨fun h => absurd h (by simp), fun hr => absurd hr.1 hbound⟩

/-- Witness for C3: the parameter at module position 3, preceded by its
function at position 2, validates successfully with derived index 0. -/
theorem C3_function_parameter_position_witness :
    validateFunctionParameter c3State 3 = .ok :=
  ((C3_function_parameter_position c3State 3 (by decide)).2.2 2
    ⟨.OpTypeFunction, [4, 2, 5]⟩ (by decide) (by decide) (by decide)
    (fun l hl1 hl2 => by omega) (by decide) (by decide)).mpr
    ⟨by decide, ⟨.OpTypeFloat, [5, 32]⟩, by decide, by decide⟩

/-- Fuel monotonicity of the nullability traversal: an answer reached
within some fuel is preserved by any larger fuel. -/
theorem nullableF_mono (st : ValidationState) :
    ∀ n m, n ≤ m →
      ((∀ ws b, isTypeNullableF st n ws = some b →
        isTypeNullableF st m ws = some b) ∧
      (∀ l b, nullableMembersF st n l = some b →
        nullableMembersF st m l = some b)) := by
  intro n
  induction n with
  | zero =>
    intro m _
    refine ⟨?_, ?_⟩
    · intro ws b h
      simp [isTypeNullableF] at h
    · intro l b h
      induction l with
      | nil =>
        rw [nullableMembersF] at h ⊢
        exact h
      | cons x rest ihl =>
        rw [nullableMembersF] at h ⊢
        cases hd : st.findDef x with
        | none =>
          rw [hd] at h
          exact h
        | some e =>
          rw [hd] at h
          simp [isTypeNullableF] at h
  | succ n ihn =>
    intro m hm
    obtain ⟨mp, rfl⟩ : ∃ mp, m = mp + 1 := ⟨m - 1, by omega⟩
    obtain ⟨ihT, ihM⟩ := ihn mp (by omega)
    have hT : ∀ ws b, isTypeNullableF st (n + 1) ws = some b →
        isTypeNullableF st (mp + 1) ws = some b := by
      intro ws b h
      rw [isTypeNullableF] at h ⊢
      cases hop : decodeOp (ws.headD 0) <;> rw [hop] at h <;>
        first
        | exact h
        | exact ihM (ws.drop 2) b h
        | (cases hd : st.findDef (ws.getD 2 0) with
           | none =>
             rw [hd] at h
             exact h
           | some bt =>
             rw [hd] at h
             exact ihT bt.words b h)
        | (have h2 : (if 4 < ws.length then
              (match st.findDef (ws.getD 2 0) with
               | none => some false
               | some et => isTypeNullableF st n et.words)
              else some false) = some b := h
           show (if 4 < ws.length then
              (match st.findDef (ws.getD 2 0) with
               | none => some false
               | some et => isTypeNullableF st mp et.words)
              else some false) = some b
           by_cases hlen : 4 < ws.length
           · rw [if_pos hlen] at h2 ⊢
             cases hd : st.findDef (ws.getD 2 0) with
             | none =>
               rw [hd] at h2
               exact h2
             | some et =>
               rw [hd] at h2
               exact ihT et.words b h2
           · rw [if_neg hlen] at h2 ⊢
             exact h2)
    refine ⟨hT, ?_⟩
    intro l b h
    induction l with
    | nil =>
      rw [nullableMembersF] at h ⊢
      exact h
    | cons x rest ihl =>
      rw [nullableMembersF] at h ⊢
      cases hd : st.findDef x with
      | none =>
        rw [hd] at h
        exact h
      | some e =>
        rw [hd] at h
        have h2 : (match isTypeNullableF st (n + 1) e.words with
            | none => none
            | some false => some false
            | some true => nullableMembersF st (n + 1) rest) = some b := h
        show (match isTypeNullableF st (mp + 1) e.words with
            | none => none
            | some false => some false
            | some true => nullableMembersF st (mp + 1) rest) = some b
        cases hnn : isTypeNullableF st (n + 1) e.words with
        | none =>
          rw [hnn] at h2
          simp at h2
        | some bb =>
          rw [hnn] at h2
          rw [hT e.words bb hnn]
          cases bb with
          | false => exact h2
          | true => exact ihl h2

/-- Soundness of the fuel-indexed traversal against the spec predicate:
an answer of true within any fuel witnesses nullability. -/
theorem nullableF_sound (st : ValidationState) :
    ∀ n, ((∀ ws, isTypeNullableF st n ws = some true → NullableW st ws) ∧
      (∀ l, nullableMembersF st n l = some true →
        (∀ m ∈ l, (st.findDef m).isSome) ∧
        (∀ m e, m ∈ l → st.findDef m = some e → NullableW st e.words))) := by
  intro n
  induction n with
  | zero =>
    refine ⟨?_, ?_⟩
    · intro ws h
      simp [isTypeNullableF] at h
    · intro l h
      induction l with
      | nil => exact ⟨by simp, by simp⟩
      | cons x rest ihl =>
        rw [nullableMembersF] at h
        cases hd : st.findDef x with
        | none =>
          rw [hd] at h
          exact absurd h (by simp)
        | some e =>
          rw [hd] at h
          simp [isTypeNullableF] at h
  | succ n ihn =>
    obtain ⟨ihT, ihM⟩ := ihn
    have hT : ∀ ws, isTypeNullableF st (n + 1) ws = some true →
        NullableW st ws := by
      intro ws h
      rw [isTypeNullableF] at h
      cases hop : decodeOp (ws.headD 0) <;> rw [hop] at h <;>
        first
        | exact NullableW.base ws (by rw [hop]; decide)
        | (have h2 : nullableMembersF st n (ws.drop 2) = some true := h
           obtain ⟨hdef, hmem⟩ := ihM (ws.drop 2) h2
           exact NullableW.strukt ws hop hdef hmem)
        | (have h2 : (match st.findDef (ws.getD 2 0) with
              | none => some false
              | some bt => isTypeNullableF st n bt.words) = some true := h
           cases hd : st.findDef (ws.getD 2 0) with
           | none =>
             rw [hd] at h2
             exact absurd h2 (by simp)
           | some bt =>
             rw [hd] at h2
             exact NullableW.comp ws bt (by rw [hop]; decide) hd
               (ihT bt.words h2))
        | (refine NullableW.ptr ws (by rw [hop]; decide) ?_
           have h2 : some (decide (ws.getD 2 0 ≠ scPhysicalStorageBuffer)) =
               some true := h
           injection h2 with hb
           exact of_decide_eq_true hb)
        | (have h2 : (if 4 < ws.length then
              (match st.findDef (ws.getD 2 0) with
               | none => some false
               | some et => isTypeNullableF st n et.words)
              else some false) = some true := h
           by_cases hlen : 4 < ws.length
           · rw [if_pos hlen] at h2
             cases hd : st.findDef (ws.getD 2 0) with
             | none =>
               rw [hd] at h2
               exact absurd h2 (by simp)
             | some et =>
               rw [hd] at h2
               exact NullableW.tensor ws et hop hlen hd (ihT et.words h2)
           · rw [if_neg hlen] at h2
             exact absurd h2 (by simp))
        | exact absurd h (by simp)
    refine ⟨hT, ?_⟩
    intro l h
    induction l with
    | nil => exact ⟨by simp, by simp⟩
    | cons x rest ihl =>
      rw [nullableMembersF] at h
      cases hd : st.findDef x with
      | none =>
        rw [hd] at h
        exact absurd h (by simp)
      | some e =>
        rw [hd] at h
        have h2 : (match isTypeNullableF st (n + 1) e.words with
            | none => none
            | some false => some false
            | some true => nullableMembersF st (n + 1) rest) = some true := h
        cases hnn : isTypeNullableF st (n + 1) e.words with
        | none =>
          rw [hnn] at h2
          simp at h2
        | some bb =>
          rw [hnn] at h2
          cases bb with
          | false => exact absurd h2 (by simp)
          | true =>
            obtain ⟨hdef, hmem⟩ := ihl h2
            refine ⟨?_, ?_⟩
            · intro m hm
              rcases List.mem_cons.mp hm with rfl | hm2
              · rw [hd]
                rfl
              · exact hdef m hm2
            · intro m e2 hm he2
              rcases List.mem_cons.mp hm with rfl | hm2
              · rw [hd] at he2
                injection he2 with he3
                subst he3
                exact hT e.words hnn
              · exact hmem m e2 hm2 he2

/-- Completeness of the member walk: when every member resolves and is
nullable at some fuel, some fuel validates the whole list. -/
theorem nullableMembersF_complete (st : ValidationState) :
    ∀ l : List Nat,
    (∀ m ∈ l, (st.findDef m).isSome) →
    (∀ m e, m ∈ l → st.findDef m = some e →
      ∃ n, isTypeNullableF st n e.words = some true) →
    ∃ n, nullableMembersF st n l = some true
  | [], _, _ => ⟨0, by rw [nullableMembersF]⟩
  | x :: rest, hdef, hmem => by
    rcases Option.isSome_iff_exists.mp
      (hdef x (List.mem_cons_self _ _)) with ⟨e, he⟩
    rcases hmem x e (List.mem_cons_self _ _) he with ⟨n1, hn1⟩
    rcases nullableMembersF_complete st rest
      (fun m hm => hdef m (List.mem_cons_of_mem _ hm))
      (fun m e2 hm he2 => hmem m e2 (List.mem_cons_of_mem _ hm) he2) with
      ⟨n2, hn2⟩
    refine ⟨max n1 n2, ?_⟩
    rw [nullableMembersF, he]
    have h1 : isTypeNullableF st (max n1 n2) e.words = some true :=
      (nullableF_mono st n1 (max n1 n2) (le_max_left _ _)).1 e.words true hn1
    show (match isTypeNullableF st (max n1 n2) e.words with
        | none => none
        | some false => some false
        | some true => nullableMembersF st (max n1 n2) rest) = some true
    rw [h1]
    exact (nullableF_mono st n2 (max n1 n2) (le_max_right _ _)).2 rest
      true hn2

/-- Completeness of the fuel-indexed traversal: a type nullable per the
spec predicate is validated as nullable within some fuel. -/
theorem nullableW_complete (st : ValidationState) :
    ∀ ws, NullableW st ws → ∃ n, isTypeNullableF st n ws = some true := by
  intro ws h
  induction h with
  | base ws hb =>
    refine ⟨1, ?_⟩
    rw [isTypeNullableF]
    have hb2 : decodeOp (ws.headD 0) = .OpTypeBool ∨
        decodeOp (ws.headD 0) = .OpTypeInt ∨
        decodeOp (ws.headD 0) = .OpTypeFloat ∨
        decodeOp (ws.headD 0) = .OpTypeEvent ∨
        decodeOp (ws.headD 0) = .OpTypeDeviceEvent ∨
        decodeOp (ws.headD 0) = .OpTypeReserveId ∨
        decodeOp (ws.headD 0) = .OpTypeQueue := by simpa using hb
    rcases hb2 with h1 | h1 | h1 | h1 | h1 | h1 | h1 <;> rw [h1]
  | comp ws bt hb hbt hnull ih =>
    rcases ih with ⟨n, hn⟩
    refine ⟨n + 1, ?_⟩
    rw [isTypeNullableF]
    have hb2 : decodeOp (ws.headD 0) = .OpTypeArray ∨
        decodeOp (ws.headD 0) = .OpTypeMatrix ∨
        decodeOp (ws.headD 0) = .OpTypeCooperativeMatrixNV ∨
        decodeOp (ws.headD 0) = .OpTypeCooperativeMatrixKHR ∨
        decodeOp (ws.headD 0) = .OpTypeCooperativeVectorNV ∨
        decodeOp (ws.headD 0) = .OpTypeVector := by simpa using hb
    rcases hb2 with h1 | h1 | h1 | h1 | h1 | h1 <;> rw [h1, hbt] <;> exact hn
  | strukt ws hb hdef hmem ih =>
    rcases nullableMembersF_complete st (ws.drop 2) hdef
      (fun m e hm he => ih m e hm he) with ⟨n, hn⟩
    refine ⟨n + 1, ?_⟩
    rw [isTypeNullableF, hb]
    exact hn
  | ptr ws hb hsc =>
    refine ⟨1, ?_⟩
    rw [isTypeNullableF]
    have hb2 : decodeOp (ws.headD 0) = .OpTypeUntypedPointerKHR ∨
        decodeOp (ws.headD 0) = .OpTypePointer := by simpa using hb
    rcases hb2 with h1 | h1 <;> rw [h1] <;> simp <;> simpa using hsc
  | tensor ws et hb hlen het hnull ih =>
    rcases ih with ⟨n, hn⟩
    refine ⟨n + 1, ?_⟩
    rw [isTypeNullableF, hb]
    show (if 4 < ws.length then
        (match st.findDef (ws.getD 2 0) with
         | none => some false
         | some et2 => isTypeNullableF st n et2.words)
        else some false) = some true
    rw [if_pos hlen, het]
    exact hn

/-- C5: OpConstantNull succeeds (within some traversal fuel) iff its
result type resolves and satisfies the recursive nullability predicate
`NullableW` — bool, int, float, event, device-event, reserve-id and
queue types are nullable; array, matrix, vector, cooperative-matrix and
cooperative-vector types are nullable iff their base type is; a struct
iff every member is; a pointer unless its storage class is
PhysicalStorageBuffer; a shaped tensor iff its element type is; nothing
else.  In particular a pointer of storage class PhysicalStorageBuffer
is never accepted, for any pointee type. -/
theorem C5_constant_null_nullability (st : ValidationState) (inst : Inst) :
    ((∃ fuel, validateConstantNullF fuel st inst = some VRes.ok) ↔
      (∃ rt, st.findDef inst.typeId = some rt ∧ NullableW st rt.words)) ∧
    (∀ rt, st.findDef inst.typeId = some rt →
      (rt.op = .OpTypePointer ∨ rt.op = .OpTypeUntypedPointerKHR) →
      rt.args.getD 1 0 = scPhysicalStorageBuffer →
      ∀ fuel, validateConstantNullF fuel st inst ≠ some VRes.ok) := by
  have hdec : ∀ rt : Inst, decodeOp (rt.words.headD 0) = rt.op := by
    intro rt
    show decodeOp ((rt.op.code :: rt.args).headD 0) = rt.op
    rw [List.headD_cons]
    exact decodeOp_code rt.op
  have hw2 : ∀ rt : Inst, rt.words.getD 2 0 = rt.args.getD 1 0 := by
    intro rt
    show (rt.op.code :: rt.args).getD 2 0 = rt.args.getD 1 0
    rw [List.getD_cons_succ]
  constructor
  · constructor
    · rintro ⟨fuel, hf⟩
      rw [validateConstantNullF] at hf
      cases hrt : st.findDef inst.typeId with
      | none =>
        rw [hrt] at hf
        simp at hf
      | some rt =>
        rw [hrt] at hf
        have hf2 : (match isTypeNullableF st fuel rt.words with
            | none => none
            | some true => some VRes.ok
            | some false =>
              some (VRes.err ⟨.INVALID_ID, inst.typeId⟩)) = some VRes.ok := hf
        cases hb : isTypeNullableF st fuel rt.words with
        | none =>
          rw [hb] at hf2
          simp at hf2
        | some b =>
          rw [hb] at hf2
          cases b with
          | false => simp at hf2
          | true =>
            exact ⟨rt, rfl, (nullableF_sound st fuel).1 rt.words hb⟩
    · rintro ⟨rt, hrt, hnull⟩
      rcases nullableW_complete st rt.words hnull with ⟨n, hn⟩
      refine ⟨n, ?_⟩
      rw [validateConstantNullF, hrt]
      show (match isTypeNullableF st n rt.words with
          | none => none
          | some true => some VRes.ok
          | some false =>
            some (VRes.err ⟨.INVALID_ID, inst.typeId⟩)) = some VRes.ok
      rw [hn]
  · intro rt hrt hptr hsc fuel hcontra
    have hnot : ¬ NullableW st rt.words := by
      intro hn
      cases hn with
      | base ws hb =>
        rw [hdec] at hb
        rcases hptr with h | h <;> rw [h] at hb <;> simp at hb
      | comp ws bt hb hbt hnull =>
        rw [hdec] at hb
        rcases hptr with h | h <;> rw [h] at hb <;> simp at hb
      | strukt ws hb hdef hmem =>
        rw [hdec] at hb
        rcases hptr with h | h <;> rw [h] at hb <;> exact Op.noConfusion hb
      | ptr ws hb hsc2 =>
        rw [hw2] at hsc2
        exact hsc2 hsc
      | tensor ws et hb hlen het hnull =>
        rw [hdec] at hb
        rcases hptr with h | h <;> rw [h] at hb <;> exact Op.noConfusion hb
    rw [validateConstantNullF, hrt] at hcontra
    have hc2 : (match isTypeNullableF st fuel rt.words with
        | none => none
        | some true => some VRes.ok
        | some false =>
          some (VRes.err ⟨.INVALID_ID, inst.typeId⟩)) = some VRes.ok := hcontra
    cases hb : isTypeNullableF st fuel rt.words with
    | none =>
      rw [hb] at hc2
      simp at hc2
    | some b =>
      rw [hb] at hc2
      cases b with
      | false => simp at hc2
      | true => exact hnot ((nullableF_sound st fuel).1 rt.words hb)

/-- Witness for C5: a null constant of a PhysicalStorageBuffer pointer
type is rejected at a concrete fuel. -/
theorem C5_constant_null_nullability_witness :
    validateConstantNullF 3 c5State c5Inst ≠ some VRes.ok :=
  (C5_constant_null_nullability c5State c5Inst).2
    ⟨.OpTypePointer, [2, 5349, 1]⟩ (by decide) (Or.inl rfl) (by decide) 3

end SpvTools
